import Mathlib

/-!
# Ray / primitive intersection: Sphere, Cylinder, Cone

A shallow embedding of `src/src/geom.cpp`, `src/src/Sphere.cpp`,
`src/src/Cylinder.cpp` and `src/src/Cone.cpp`.

Conventions of the embedding.

* `float`, `double` and `decimal` are read as exact real numbers: every cast
  between them is the identity and `pow(x, 2)` is `x ^ 2`. Two things are kept
  apart from this reading, where the texture coordinates depend on them: a
  texture coordinate may be no number (`acos` outside `[-1, 1]`, a division by
  zero), so the components of `vec2` are `Option ℝ`; and the stores into
  `float a, b, c` of Cylinder.cpp have a second reading, `Cylinder.StoredHit`,
  in which they hold a nearest single-precision value.
* The GLM types are modelled by their mathematical meaning: `vec3` is a triple,
  `vec4` a function on `Fin 4`, `mat4` a 4x4 matrix acting on column vectors.
* A `std::unique_ptr<T>` result is an `Option T`, `nullptr` being `none`.
* `Tools::calculateQuadratic` (tools.cpp) and `_findIntersectionWithPlane` are
  not among the sources; the intersection routines take them as arguments.
  The `bool` result with two output references is an `Option (ℝ × ℝ)`.
* The `currentdepth` argument of `intersect` is never read nor written and is
  left out.
-/

noncomputable section

namespace RayTracer

/-! ## GLM vectors and matrices -/

/-- The type `glm::vec2`, used for texture coordinates only; a component is a
real number, or `none` when the float is not a number. -/
@[ext]
structure vec2 where
  x : Option ℝ
  y : Option ℝ

/-- The type `glm::vec3`. -/
@[ext]
structure vec3 where
  x : ℝ
  y : ℝ
  z : ℝ

/-- The type `glm::vec4`, indexed by `0, 1, 2, 3` for `x, y, z, w`. -/
abbrev vec4 : Type := Fin 4 → ℝ

/-- The type `glm::mat4`; entry `m i j` is row `i`, column `j`. -/
abbrev mat4 : Type := Matrix (Fin 4) (Fin 4) ℝ

/-- Componentwise sum `u + v` of two `vec3`. -/
instance : Add vec3 := ⟨fun u v => ⟨u.x + v.x, u.y + v.y, u.z + v.z⟩⟩

/-- Componentwise difference `u - v` of two `vec3`. -/
instance : Sub vec3 := ⟨fun u v => ⟨u.x - v.x, u.y - v.y, u.z - v.z⟩⟩

/-- Scalar times vector, `t * v`. -/
instance : HMul ℝ vec3 vec3 := ⟨fun t v => ⟨t * v.x, t * v.y, t * v.z⟩⟩

/-- The constructor `vec4(v, w)`. -/
def mkVec4 (v : vec3) (w : ℝ) : vec4 := ![v.x, v.y, v.z, w]

/-- The conversion `vec3(v)` of a `vec4`, dropping `w`. -/
def toVec3 (v : vec4) : vec3 := ⟨v 0, v 1, v 2⟩

/-- The default-constructed `glm::vec3()`: the zero vector (the GLM releases in
which `glm::mat4()` is the identity, as `geom.cpp` relies on, zero-initialise
vectors). -/
def vec3Default : vec3 := ⟨0, 0, 0⟩

namespace glm

/-- The function `glm::dot` on `vec3`. -/
def dot (u v : vec3) : ℝ := u.x * v.x + u.y * v.y + u.z * v.z

/-- The function `glm::cross`. -/
def cross (u v : vec3) : vec3 :=
  ⟨u.y * v.z - v.y * u.z, u.z * v.x - v.z * u.x, u.x * v.y - v.x * u.y⟩

/-- The function `glm::length` on `vec3`. -/
def length (v : vec3) : ℝ := Real.sqrt (dot v v)

/-- The function `glm::normalize`: `v * inversesqrt(dot(v, v))`. -/
def normalize (v : vec3) : vec3 := (1 / Real.sqrt (dot v v)) * v

/-- The function `glm::transpose`. -/
def transpose (m : mat4) : mat4 := Matrix.transpose m

/-- The function `glm::inverse`: the adjugate divided by the determinant. -/
def inverse (m : mat4) : mat4 := m⁻¹

/-- The function `glm::translate(m, v)`: `m` times the translation by `v`. -/
def translate (m : mat4) (v : vec3) : mat4 :=
  m * !![1, 0, 0, v.x; 0, 1, 0, v.y; 0, 0, 1, v.z; 0, 0, 0, 1]

/-- The function `glm::scale(m, v)`: `m` times the axis scaling by `v`. -/
def scale (m : mat4) (v : vec3) : mat4 :=
  m * !![v.x, 0, 0, 0; 0, v.y, 0, 0; 0, 0, v.z, 0; 0, 0, 0, 1]

/-- The function `glm::rotate(m, angle, v)`: `m` times the rotation by `angle`
about the normalised axis `v` (axis-angle formula of GLM, written row by row). -/
def rotate (m : mat4) (angle : ℝ) (v : vec3) : mat4 :=
  let c := Real.cos angle
  let s := Real.sin angle
  let axis := normalize v
  let temp : vec3 := (1 - c) * axis
  m * !![c + temp.x * axis.x, temp.y * axis.x - s * axis.z, temp.z * axis.x + s * axis.y, 0;
         temp.x * axis.y + s * axis.z, c + temp.y * axis.y, temp.z * axis.y - s * axis.x, 0;
         temp.x * axis.z - s * axis.y, temp.y * axis.z + s * axis.x, c + temp.z * axis.z, 0;
         0, 0, 0, 1]

end glm

/-! ## cmath -/

/-- The function `acos` of cmath, on an argument that may already be no number:
the result is not a number when the argument is outside `[-1, 1]`. -/
def cmath.acos (x : Option ℝ) : Option ℝ :=
  x.bind fun w => if -1 ≤ w ∧ w ≤ 1 then some (Real.arccos w) else none

/-- The quotient `x / y` of two floats as the argument of `acos`: no finite
number when `y` is zero. -/
def cmath.quotient (x y : ℝ) : Option ℝ := if y = 0 then none else some (x / y)

/-! ## basic_structs: rays and intersection records -/

/-- The struct `Ray`. -/
structure Ray where
  origin : vec3
  direction : vec3

/-- The struct `Intersection`, over the type of material references. -/
structure Intersection (Material : Type) where
  ray : Ray
  point : vec3
  normal : vec3
  uv : vec2
  material : Material

/-! ## geom.cpp -/

/-- The data members of class `Geometry`. -/
structure Geometry (Material : Type) where
  _transformationMatrix : mat4
  _transformationMatrixInverse : mat4
  _material : Material

/-- The constructor `Geometry::Geometry` (geom.cpp, lines 9-21); `glm::mat4()`
is the identity matrix and the Euler angles are in the unit `glm::rotate` takes
(radians in the specification). -/
def Geometry.new {Material : Type} (position orientation scaling : vec3) (mtl : Material) :
    Geometry Material :=
  let m : mat4 :=
    glm.translate 1 position
      * glm.rotate 1 orientation.x ⟨1, 0, 0⟩
      * glm.rotate 1 orientation.y ⟨0, 1, 0⟩
      * glm.rotate 1 orientation.z ⟨0, 0, 1⟩
      * glm.scale 1 scaling
  { _transformationMatrix := m
    _transformationMatrixInverse := glm.inverse m
    _material := mtl }

/-- The object-space origin `e` of a ray: line 16 of each `intersect`. -/
def Geometry.transformedRayOrigin {Material : Type} (G : Geometry Material) (ray : Ray) : vec3 :=
  toVec3 (Matrix.mulVec G._transformationMatrixInverse (mkVec4 ray.origin 1))

/-- The object-space direction `d` of a ray: line 17 of each `intersect`. -/
def Geometry.transformedRayDirection {Material : Type} (G : Geometry Material) (ray : Ray) :
    vec3 :=
  toVec3 (Matrix.mulVec G._transformationMatrixInverse (mkVec4 ray.direction 0))

/-- The vector the final `glm::normalize` of each `intersect` is applied to:
`vec3(glm::transpose(_transformationMatrixInverse) * glm::vec4(n, 0.0f))`. -/
def Geometry.normalToWorld {Material : Type} (G : Geometry Material) (n : vec3) : vec3 :=
  toVec3 (Matrix.mulVec (glm.transpose G._transformationMatrixInverse) (mkVec4 n 0))

/-- The last assignment to `intersectionPoint` in each `intersect`:
`vec3(_transformationMatrixInverse * vec4(p, 1.0f))`. -/
def Geometry.returnedPoint {Material : Type} (G : Geometry Material) (p : vec3) : vec3 :=
  toVec3 (Matrix.mulVec G._transformationMatrixInverse (mkVec4 p 1))

/-- The root used for the hit point: `(0 > t0) ? t1 : t0`. -/
def selectRoot (t0 t1 : ℝ) : ℝ := if 0 > t0 then t1 else t0

/-! ## Sphere.cpp -/

/-- The member `_radius` of `Sphere`, set to `1.0f` by its only constructor and
never assigned afterwards. -/
def Sphere._radius : ℝ := 1.0

/-- Lines 16-43 of `Sphere::intersect`: the object-space `intersectionPoint`, or
`none` where the function returns `nullptr`. -/
def Sphere.intersectionPoint {Material : Type} (calculateQuadratic : ℝ → ℝ → ℝ → Option (ℝ × ℝ))
    (G : Geometry Material) (ray : Ray) : Option vec3 :=
  let e := G.transformedRayOrigin ray
  let d := G.transformedRayDirection ray
  let a := glm.dot d d
  let b := 2 * glm.dot d e
  let c := glm.dot e e - Sphere._radius ^ 2
  match calculateQuadratic a b c with
  | none => none
  | some (t0, t1) =>
    if 0 > t1 then none
    else some (e + selectRoot t0 t1 * d)

/-- Lines 45-56 of `Sphere::intersect`: the record built from the object-space
hit point. -/
def Sphere.record {Material : Type} (G : Geometry Material) (ray : Ray) (p : vec3) :
    Intersection Material :=
  let intersectionNormal := glm.normalize p
  let uvCoordinates : vec2 := ⟨some 1, some 1⟩
  let intersectionNormal := glm.normalize (G.normalToWorld intersectionNormal)
  let intersectionPoint := G.returnedPoint p
  ⟨ray, intersectionPoint, intersectionNormal, uvCoordinates, G._material⟩

/-- The method `Sphere::intersect` (Sphere.cpp, lines 12-59). -/
def Sphere.intersect {Material : Type} (calculateQuadratic : ℝ → ℝ → ℝ → Option (ℝ × ℝ))
    (G : Geometry Material) (ray : Ray) : Option (Intersection Material) :=
  (Sphere.intersectionPoint calculateQuadratic G ray).map (Sphere.record G ray)

/-! ## Cylinder.cpp -/

/-- Lines 16-55 of the `intersect` of Cylinder.cpp: the object-space
`intersectionPoint`, or `none` where the function returns `nullptr`. -/
def Cylinder.intersectionPoint {Material : Type}
    (calculateQuadratic : ℝ → ℝ → ℝ → Option (ℝ × ℝ))
    (G : Geometry Material) (ray : Ray) : Option vec3 :=
  let e := G.transformedRayOrigin ray
  let d := G.transformedRayDirection ray
  let a := d.x ^ 2 + d.z ^ 2
  let b := 2 * e.x * d.x + 2 * e.z * d.z
  let c := e.x ^ 2 + e.z ^ 2 - 1
  match calculateQuadratic a b c with
  | none => none
  | some (t0, t1) =>
    if 0 > t1 then none
    else
      let intersectionPoint := e + selectRoot t0 t1 * d
      if intersectionPoint.y < -1 ∨ intersectionPoint.y > 1 then none
      else some intersectionPoint

/-- Lines 61-80 of the `intersect` of Cylinder.cpp: the texture coordinates of
an object-space hit point. `u` is not a number when `acos` is taken outside
`[-1, 1]`. The local `z` is a `float`: statements that depend on which values
`z` can take assume `IsFloat32` of it. -/
def Cylinder.uvCoordinates (intersectionPoint : vec3) : vec2 :=
  let z := intersectionPoint.z
  let u : Option ℝ :=
    if |z| < 0.0001 then some 0
    else
      let u := (cmath.acos (some intersectionPoint.x)).map fun w => w / (2 * Real.pi)
      if z < 0 then u.map fun w => 1 - w else u
  let v := (intersectionPoint.y + 1) / 2
  ⟨u, some v⟩

/-- Line 57 of the `intersect` of Cylinder.cpp: the object-space normal. -/
def Cylinder.objectNormal (intersectionPoint : vec3) : vec3 :=
  glm.normalize intersectionPoint

/-- Lines 57-88 of the `intersect` of Cylinder.cpp: the record built from the
object-space hit point. -/
def Cylinder.record {Material : Type} (G : Geometry Material) (ray : Ray) (p : vec3) :
    Intersection Material :=
  let intersectionNormal := Cylinder.objectNormal p
  let uvCoordinates := Cylinder.uvCoordinates p
  let intersectionNormal := glm.normalize (G.normalToWorld intersectionNormal)
  let intersectionPoint := G.returnedPoint p
  ⟨ray, intersectionPoint, intersectionNormal, uvCoordinates, G._material⟩

/-- The `intersect` method defined in Cylinder.cpp (lines 12-91). -/
def Cylinder.intersect {Material : Type} (calculateQuadratic : ℝ → ℝ → ℝ → Option (ℝ × ℝ))
    (G : Geometry Material) (ray : Ray) : Option (Intersection Material) :=
  (Cylinder.intersectionPoint calculateQuadratic G ray).map (Cylinder.record G ray)

/-! ## Cone.cpp -/

/-- The state of `Cone::intersect` at line 101, when it has not returned
`nullptr`: the flag `checkExtremity` and the object-space point and normal. -/
structure Cone.Hit where
  checkExtremity : Bool
  intersectionPoint : vec3
  intersectionNormal : vec3

/-- Lines 16-100 of `Cone::intersect`. The locals `intersectionPoint` and
`intersectionNormal` are default-constructed at lines 54-55 and keep that value
on the path that assigns neither. -/
def Cone.hit {Material : Type} (calculateQuadratic : ℝ → ℝ → ℝ → Option (ℝ × ℝ))
    (_findIntersectionWithPlane : Ray → vec3 → vec3 → vec3 → Option vec3)
    (G : Geometry Material) (ray : Ray) : Option Cone.Hit :=
  let e := G.transformedRayOrigin ray
  let d := G.transformedRayDirection ray
  let a := d.x ^ 2 + d.z ^ 2 - d.y ^ 2
  let b := 2 * e.x * d.x + 2 * e.z * d.z - 2 * e.y * d.y
  let c := e.x ^ 2 + e.z ^ 2 - e.y ^ 2
  match calculateQuadratic a b c with
  | none =>
    -- checkExtremity = true
    match _findIntersectionWithPlane ray ⟨0, -1, 0⟩ ⟨1, -1, 0⟩ ⟨0, -1, 1⟩ with
    | some intersectionPoint =>
      if Real.sqrt (intersectionPoint.x ^ 2 + intersectionPoint.z ^ 2) ≥ 1.0001 then none
      else some ⟨true, intersectionPoint, glm.normalize ⟨0, -1, 0⟩⟩
    | none => some ⟨true, vec3Default, vec3Default⟩
  | some (t0, t1) =>
    if 0 > t1 then none
    else
      let intersectionPoint := e + selectRoot t0 t1 * d
      if intersectionPoint.y < -1.0001 ∨ intersectionPoint.y > 0.0001 then none
      else
        let intersectionNormal := glm.normalize ⟨intersectionPoint.x, 0, intersectionPoint.z⟩
        let intersectionNormal := glm.normalize ⟨intersectionNormal.x, 1, intersectionNormal.z⟩
        some ⟨false, intersectionPoint, intersectionNormal⟩

/-- Lines 104-137 of `Cone::intersect`: the texture coordinates. `u` is not a
number when the divisor is zero or the quotient is outside `[-1, 1]`. -/
def Cone.uvCoordinates (checkExtremity : Bool) (intersectionPoint : vec3) : vec2 :=
  if checkExtremity then
    let v := Real.sqrt (intersectionPoint.x ^ 2 + intersectionPoint.z ^ 2)
    let u := (cmath.acos (cmath.quotient intersectionPoint.x v)).map
      fun w => w / (2 * Real.pi)
    let u := if intersectionPoint.z < -0.0001 then u.map fun w => 1 - w else u
    ⟨u, some v⟩
  else
    let v := intersectionPoint.y + 1
    let u := (cmath.acos (cmath.quotient intersectionPoint.x
      (1 + (-1 * (intersectionPoint.y + 1))))).map fun w => w / (2 * Real.pi)
    let u := if intersectionPoint.z < -0.0001 then u.map fun w => 1 - w else u
    ⟨u, some v⟩

/-- Lines 102-145 of `Cone::intersect`: the record built from the state at
line 101. -/
def Cone.record {Material : Type} (G : Geometry Material) (ray : Ray) (h : Cone.Hit) :
    Intersection Material :=
  let uvCoordinates := Cone.uvCoordinates h.checkExtremity h.intersectionPoint
  let intersectionNormal := glm.normalize (G.normalToWorld h.intersectionNormal)
  let intersectionPoint := G.returnedPoint h.intersectionPoint
  ⟨ray, intersectionPoint, intersectionNormal, uvCoordinates, G._material⟩

/-- The method `Cone::intersect` (Cone.cpp, lines 12-148). -/
def Cone.intersect {Material : Type} (calculateQuadratic : ℝ → ℝ → ℝ → Option (ℝ × ℝ))
    (_findIntersectionWithPlane : Ray → vec3 → vec3 → vec3 → Option vec3)
    (G : Geometry Material) (ray : Ray) : Option (Intersection Material) :=
  (Cone.hit calculateQuadratic _findIntersectionWithPlane G ray).map (Cone.record G ray)

/-! ## The quadratic solver -/

/-- The contract of `Tools::calculateQuadratic` on a proper quadratic
(`a ≠ 0`): the result is `none` exactly when the discriminant is negative, and
otherwise it is the pair of the two real roots, smallest first. -/
def QuadraticContract (calculateQuadratic : ℝ → ℝ → ℝ → Option (ℝ × ℝ)) : Prop :=
  ∀ a b c : ℝ, a ≠ 0 →
    (b ^ 2 - 4 * a * c < 0 → calculateQuadratic a b c = none) ∧
    (0 ≤ b ^ 2 - 4 * a * c → ∃ t0 t1 : ℝ, calculateQuadratic a b c = some (t0, t1) ∧
      t0 ≤ t1 ∧ ∀ t : ℝ, a * t ^ 2 + b * t + c = a * (t - t0) * (t - t1))

/-- A solver that only ever returns real roots: whenever it reports a pair, both
members solve `a t² + b t + c = 0`, also when `a = 0`. -/
def ReturnsRoots (calculateQuadratic : ℝ → ℝ → ℝ → Option (ℝ × ℝ)) : Prop :=
  ∀ a b c t0 t1 : ℝ, calculateQuadratic a b c = some (t0, t1) →
    a * t0 ^ 2 + b * t0 + c = 0 ∧ a * t1 ^ 2 + b * t1 + c = 0

/-- Modelled from the spec: the policy of `Tools::calculateQuadratic` (tools.cpp
is not among the sources) on a degenerate quadratic, `a = 0`. Sections 4.2 and 7
allow two policies, report no intersection or treat the equation as linear; the
linear equation `b t + c = 0` has a root to report only when `b ≠ 0`. -/
def DegeneratePolicy (calculateQuadratic : ℝ → ℝ → ℝ → Option (ℝ × ℝ)) : Prop :=
  ∀ b c : ℝ, calculateQuadratic 0 b c = none ∨
    (b ≠ 0 ∧ calculateQuadratic 0 b c = some (-c / b, -c / b))

/-- Modelled from the spec: `Tools::calculateQuadratic` (tools.cpp is not among
the sources). Section 4.2: discriminant `b² − 4ac`, no real roots when it is
negative, otherwise the two roots with `t0 ≤ t1`; for `a = 0` the recommended
policy "report no intersection" is taken, so that nothing is divided by zero. -/
def Tools.calculateQuadratic (a b c : ℝ) : Option (ℝ × ℝ) :=
  if a = 0 then none
  else
    let discriminant := b ^ 2 - 4 * a * c
    if discriminant < 0 then none
    else
      let r0 := (-b - Real.sqrt discriminant) / (2 * a)
      let r1 := (-b + Real.sqrt discriminant) / (2 * a)
      some (min r0 r1, max r0 r1)

/-! ## The plane-intersection helper and the stated texture mapping -/

/-- Modelled from the spec: the plane-intersection helper
`_findIntersectionWithPlane` (not among the sources). Section 4.3: given a ray
and three points `p0, p1, p2` of a plane, the point where the ray meets the
plane, or none if the ray is parallel to the plane. -/
def Cone._findIntersectionWithPlane (ray : Ray) (p0 p1 p2 : vec3) : Option vec3 :=
  let n := glm.cross (p1 - p0) (p2 - p0)
  let denominator := glm.dot n ray.direction
  if denominator = 0 then none
  else some (ray.origin + (glm.dot n (p0 - ray.origin) / denominator) * ray.direction)

/-- The cylinder texture mapping as the specification words it (section 4.5, not
the source): `u = 0` when `|z| < ε`, otherwise `u = acos(x)/(2π)`, replaced by
`1 − u` when `z < −ε`; `v = (y + 1)/2`; with `ε = 0.0001`. -/
def Cylinder.uvStated (intersectionPoint : vec3) : vec2 :=
  let u : Option ℝ :=
    if |intersectionPoint.z| < 0.0001 then some 0
    else
      let u := (cmath.acos (some intersectionPoint.x)).map fun w => w / (2 * Real.pi)
      if intersectionPoint.z < -0.0001 then u.map fun w => 1 - w else u
  ⟨u, some ((intersectionPoint.y + 1) / 2)⟩

/-! ## Single-precision stores -/

/-- The single-precision values: `m * 2 ^ e` with a mantissa of at most 24 bits
(the exponent range plays no role here). -/
def IsFloat32 (x : ℝ) : Prop := ∃ m e : ℤ, |m| < 2 ^ 24 ∧ x = m * (2 : ℝ) ^ e

/-- What a store of the real value `x` into a `float` holds: a single-precision
value nearest to `x`. -/
def StoresAs (x y : ℝ) : Prop := IsFloat32 y ∧ ∀ z : ℝ, IsFloat32 z → |y - x| ≤ |z - x|

/-- Lines 32-55 of the `intersect` of Cylinder.cpp, from the object-space ray
and the values held by `float a, b, c`. -/
def Cylinder.intersectionPointFrom (calculateQuadratic : ℝ → ℝ → ℝ → Option (ℝ × ℝ))
    (e d : vec3) (a b c : ℝ) : Option vec3 :=
  match calculateQuadratic a b c with
  | none => none
  | some (t0, t1) =>
    if 0 > t1 then none
    else
      let intersectionPoint := e + selectRoot t0 t1 * d
      if intersectionPoint.y < -1 ∨ intersectionPoint.y > 1 then none
      else some intersectionPoint

/-- Lines 16-55 of the `intersect` of Cylinder.cpp when the coefficients are
stored in single precision (lines 25-30 declare `float a`, `float b`,
`float c`): `p` is the object-space hit point of such a run. The right-hand
sides of lines 25 and 30 are sums of `pow` results, of type `double`, rounded by
the store; every other operation is read exactly, as it is carried out when its
operands and result are single-precision values. -/
def Cylinder.StoredHit {Material : Type} (calculateQuadratic : ℝ → ℝ → ℝ → Option (ℝ × ℝ))
    (G : Geometry Material) (ray : Ray) (p : vec3) : Prop :=
  ∃ a b c : ℝ,
    StoresAs ((G.transformedRayDirection ray).x ^ 2 + (G.transformedRayDirection ray).z ^ 2) a ∧
    StoresAs (2 * (G.transformedRayOrigin ray).x * (G.transformedRayDirection ray).x
      + 2 * (G.transformedRayOrigin ray).z * (G.transformedRayDirection ray).z) b ∧
    StoresAs ((G.transformedRayOrigin ray).x ^ 2 + (G.transformedRayOrigin ray).z ^ 2 - 1) c ∧
    Cylinder.intersectionPointFrom calculateQuadratic (G.transformedRayOrigin ray)
      (G.transformedRayDirection ray) a b c = some p

/-! ## Transforms -/

/-- An invertible transform as the constructor builds it: the stored inverse is
a two-sided inverse of the transform, and the transform is affine (its bottom
row is `0 0 0 1`). -/
structure Geometry.Invertible {Material : Type} (G : Geometry Material) : Prop where
  mul_inv : G._transformationMatrix * G._transformationMatrixInverse = 1
  inv_mul : G._transformationMatrixInverse * G._transformationMatrix = 1
  affine : ∀ j : Fin 4, G._transformationMatrix 3 j = if j = 3 then 1 else 0

/-- The identity transform: both stored matrices are the identity. -/
def Geometry.IsIdentity {Material : Type} (G : Geometry Material) : Prop :=
  G._transformationMatrix = 1 ∧ G._transformationMatrixInverse = 1

/-- The linear 3x3 part `A` of the transform applied to a vector:
`vec3(_transformationMatrix * vec4(t, 0))`. -/
def Geometry.linearPart {Material : Type} (G : Geometry Material) (t : vec3) : vec3 :=
  toVec3 (Matrix.mulVec G._transformationMatrix (mkVec4 t 0))

/-- The forward transform applied to a point:
`vec3(_transformationMatrix * vec4(p, 1))`. -/
def Geometry.forward {Material : Type} (G : Geometry Material) (p : vec3) : vec3 :=
  toVec3 (Matrix.mulVec G._transformationMatrix (mkVec4 p 1))

/-! ## Sample scenes -/

/-- A primitive placed at the origin, unrotated and unscaled. -/
def unitGeometry : Geometry Unit := Geometry.new ⟨0, 0, 0⟩ ⟨0, 0, 0⟩ ⟨1, 1, 1⟩ ()

/-- A primitive moved by one unit along X. -/
def shiftedGeometry : Geometry Unit := Geometry.new ⟨1, 0, 0⟩ ⟨0, 0, 0⟩ ⟨1, 1, 1⟩ ()

/-- A primitive stretched by two along X only (non-uniform scale). -/
def stretchedGeometry : Geometry Unit := Geometry.new ⟨0, 0, 0⟩ ⟨0, 0, 0⟩ ⟨2, 1, 1⟩ ()

/-- The ray of the sphere example: origin `(0,0,5)`, direction `(0,0,-1)`. -/
def sphereRay : Ray := ⟨⟨0, 0, 5⟩, ⟨0, 0, -1⟩⟩

/-- The sphere ray moved by one unit along X: origin `(1,0,5)`, direction `(0,0,-1)`. -/
def shiftedRay : Ray := ⟨⟨1, 0, 5⟩, ⟨0, 0, -1⟩⟩

/-- The ray of the cylinder example: origin `(2,0,0)`, direction `(-1,0,0)`. -/
def cylinderRay : Ray := ⟨⟨2, 0, 0⟩, ⟨-1, 0, 0⟩⟩

/-- The cylinder ray raised to height `3/4`: origin `(2,3/4,0)`, direction `(-1,0,0)`. -/
def raisedRay : Ray := ⟨⟨2, 3 / 4, 0⟩, ⟨-1, 0, 0⟩⟩

/-- The ray along the axis through the open caps: origin `(0,5,0)`, direction `(0,-1,0)`. -/
def axisRay : Ray := ⟨⟨0, 5, 0⟩, ⟨0, -1, 0⟩⟩

/-- A ray along X at depth `z = 2⁻¹³ = 0.0001220703125`: origin `(0,0,1/8192)`,
direction `(1,0,0)`. -/
def frontRay : Ray := ⟨⟨0, 0, 1 / 8192⟩, ⟨1, 0, 0⟩⟩

/-- A horizontal ray passing beside the cone: origin `(0,-0.5,2)`, direction `(1,0,0)`. -/
def besideRay : Ray := ⟨⟨0, -0.5, 2⟩, ⟨1, 0, 0⟩⟩

/-- A ray starting inside the cone, on its axis, heading to the base: origin
`(0,-0.5,0)`, direction `(0,-1,0)`. -/
def insideRay : Ray := ⟨⟨0, -0.5, 0⟩, ⟨0, -1, 0⟩⟩

/-- A cone moved ten units back along Z. -/
def farGeometry : Geometry Unit := Geometry.new ⟨0, 0, -10⟩ ⟨0, 0, 0⟩ ⟨1, 1, 1⟩ ()

/-- A ray meeting the plane `y = -1` at `(0.9999, -1, 0)`: origin `(-9.0001,0,0)`,
direction `(1,-0.1,0)`. -/
def rimInsideRay : Ray := ⟨⟨-9.0001, 0, 0⟩, ⟨1, -0.1, 0⟩⟩

/-- A ray meeting the plane `y = -1` at `(1.0001, -1, 0)`: origin `(-8.9999,0,0)`,
direction `(1,-0.1,0)`. -/
def rimOutsideRay : Ray := ⟨⟨-8.9999, 0, 0⟩, ⟨1, -0.1, 0⟩⟩

/-! ## Elementary transforms -/

/-- The translation by `p` as a 4x4 matrix. -/
def translationMatrix (p : vec3) : mat4 :=
  !![1, 0, 0, p.x; 0, 1, 0, p.y; 0, 0, 1, p.z; 0, 0, 0, 1]

/-- The rotation by `angle` about the X axis as a 4x4 matrix. -/
def rotationX (angle : ℝ) : mat4 :=
  !![1, 0, 0, 0; 0, Real.cos angle, -Real.sin angle, 0;
     0, Real.sin angle, Real.cos angle, 0; 0, 0, 0, 1]

/-- The rotation by `angle` about the Y axis as a 4x4 matrix. -/
def rotationY (angle : ℝ) : mat4 :=
  !![Real.cos angle, 0, Real.sin angle, 0; 0, 1, 0, 0;
     -Real.sin angle, 0, Real.cos angle, 0; 0, 0, 0, 1]

/-- The rotation by `angle` about the Z axis as a 4x4 matrix. -/
def rotationZ (angle : ℝ) : mat4 :=
  !![Real.cos angle, -Real.sin angle, 0, 0; Real.sin angle, Real.cos angle, 0, 0;
     0, 0, 1, 0; 0, 0, 0, 1]

/-- The axis scaling by `s` as a 4x4 matrix. -/
def scalingMatrix (s : vec3) : mat4 :=
  !![s.x, 0, 0, 0; 0, s.y, 0, 0; 0, 0, s.z, 0; 0, 0, 0, 1]

/-- Scaling a point axis by axis. -/
def scalePoint (s v : vec3) : vec3 := ⟨s.x * v.x, s.y * v.y, s.z * v.z⟩

/-- Rotating a point about the X axis. -/
def rotatePointX (angle : ℝ) (v : vec3) : vec3 :=
  ⟨v.x, Real.cos angle * v.y - Real.sin angle * v.z, Real.sin angle * v.y + Real.cos angle * v.z⟩

/-- Rotating a point about the Y axis. -/
def rotatePointY (angle : ℝ) (v : vec3) : vec3 :=
  ⟨Real.cos angle * v.x + Real.sin angle * v.z, v.y, -Real.sin angle * v.x + Real.cos angle * v.z⟩

/-- Rotating a point about the Z axis. -/
def rotatePointZ (angle : ℝ) (v : vec3) : vec3 :=
  ⟨Real.cos angle * v.x - Real.sin angle * v.y, Real.sin angle * v.x + Real.cos angle * v.y, v.z⟩

/-- Translating a point. -/
def translatePoint (p v : vec3) : vec3 := ⟨v.x + p.x, v.y + p.y, v.z + p.z⟩

/-- The transform as the specification words it (section 4.1, not the source):
scale, then rotate about X, then about Y, then about Z, then translate, that is
`T(p) * Rz(rz) * Ry(ry) * Rx(rx) * S(s)`. -/
def Geometry.statedTransform (position orientation scaling : vec3) : mat4 :=
  translationMatrix position * rotationZ orientation.z * rotationY orientation.y
    * rotationX orientation.x * scalingMatrix scaling

/-- The configuration error of section 7 of the specification. The sources
declare no such type and no statement of theirs raises an error. -/
inductive ConfigurationError where
  | nonInvertibleTransform

/-- The outcome of a call of the constructor `Geometry::Geometry` (geom.cpp,
lines 9-21): the body is two assignments, without a test of the arguments and
without a `throw`, so every call yields the constructed object. -/
def Geometry.construct {Material : Type} (position orientation scaling : vec3) (mtl : Material) :
    Except ConfigurationError (Geometry Material) :=
  Except.ok (Geometry.new position orientation scaling mtl)

/-- The orientation with a quarter turn about X and about Y. -/
def quarterTurns : vec3 := ⟨Real.pi / 2, Real.pi / 2, 0⟩

/-- A scale whose X component is zero. -/
def flatScale : vec3 := ⟨0, 1, 1⟩

/-- A ray that passes over the wall of the cylinder, enters through the open
top and strikes the inside of the wall: origin `(-2,3,0)`, direction `(1,-1,0)`. -/
def overTopRay : Ray := ⟨⟨-2, 3, 0⟩, ⟨1, -1, 0⟩⟩

/-- A horizontal ray just above the apex of the cone, at height
`2⁻¹⁴ = 0.00006103515625`: origin `(-1/8192, 1/16384, 0)`, direction `(1,0,0)`.
Every value the cone computes on it is a binary fraction of a few bits. -/
def nappeRay : Ray := ⟨⟨-(1 / 8192), 1 / 16384, 0⟩, ⟨1, 0, 0⟩⟩

/-- A horizontal ray through the apex of the cone: origin `(-1,0,0)`, direction
`(1,0,0)`. -/
def apexRay : Ray := ⟨⟨-1, 0, 0⟩, ⟨1, 0, 0⟩⟩

/-- Lines 96-99 of `Cone::intersect`: the object-space normal of a side hit. -/
def Cone.sideNormal (intersectionPoint : vec3) : vec3 :=
  glm.normalize ⟨(glm.normalize ⟨intersectionPoint.x, 0, intersectionPoint.z⟩).x, 1,
    (glm.normalize ⟨intersectionPoint.x, 0, intersectionPoint.z⟩).z⟩

/-! # Theorems -/


/-! ## Vector arithmetic -/

@[simp]
theorem vec3.add_x (u v : vec3) : (u + v).x = u.x + v.x := rfl

@[simp]
theorem vec3.add_y (u v : vec3) : (u + v).y = u.y + v.y := rfl

@[simp]
theorem vec3.add_z (u v : vec3) : (u + v).z = u.z + v.z := rfl

@[simp]
theorem vec3.mul_x (t : ℝ) (v : vec3) : (t * v).x = t * v.x := rfl

@[simp]
theorem vec3.mul_y (t : ℝ) (v : vec3) : (t * v).y = t * v.y := rfl

@[simp]
theorem vec3.mul_z (t : ℝ) (v : vec3) : (t * v).z = t * v.z := rfl

theorem glm.dot_self_nonneg (v : vec3) : 0 ≤ glm.dot v v := by
  unfold glm.dot
  nlinarith [mul_self_nonneg v.x, mul_self_nonneg v.y, mul_self_nonneg v.z]

theorem glm.dot_self_eq_zero {v : vec3} (h : glm.dot v v = 0) : v = ⟨0, 0, 0⟩ := by
  unfold glm.dot at h
  have hx : v.x = 0 := by nlinarith [mul_self_nonneg v.x, mul_self_nonneg v.y, mul_self_nonneg v.z]
  have hy : v.y = 0 := by nlinarith [mul_self_nonneg v.x, mul_self_nonneg v.y, mul_self_nonneg v.z]
  have hz : v.z = 0 := by nlinarith [mul_self_nonneg v.x, mul_self_nonneg v.y, mul_self_nonneg v.z]
  ext <;> assumption

theorem glm.dot_self_pos {v : vec3} (h : v ≠ ⟨0, 0, 0⟩) : 0 < glm.dot v v :=
  lt_of_le_of_ne (glm.dot_self_nonneg v) (fun h0 => h (glm.dot_self_eq_zero h0.symm))

/-- Normalising a non-zero vector gives a vector of length one. -/
theorem glm.length_normalize {v : vec3} (h : v ≠ ⟨0, 0, 0⟩) :
    glm.length (glm.normalize v) = 1 := by
  have hpos := glm.dot_self_pos h
  have hs : 0 < Real.sqrt (glm.dot v v) := Real.sqrt_pos.mpr hpos
  have hss : Real.sqrt (glm.dot v v) * Real.sqrt (glm.dot v v) = glm.dot v v :=
    Real.mul_self_sqrt hpos.le
  have key : glm.dot (glm.normalize v) (glm.normalize v) = 1 := by
    have : glm.dot (glm.normalize v) (glm.normalize v)
        = glm.dot v v / (Real.sqrt (glm.dot v v) * Real.sqrt (glm.dot v v)) := by
      simp only [glm.normalize, glm.dot, vec3.mul_x, vec3.mul_y, vec3.mul_z]
      field_simp
    rw [this, hss]
    exact div_self hpos.ne.symm
  rw [glm.length, key, Real.sqrt_one]

/-- A vector whose squared length is one is its own normalisation. -/
theorem glm.normalize_of_dot_self_eq_one {v : vec3} (h : glm.dot v v = 1) :
    glm.normalize v = v := by
  ext <;> simp [glm.normalize, h]

/-- The normalisation of a non-zero vector is non-zero. -/
theorem glm.normalize_ne_zero {v : vec3} (h : v ≠ ⟨0, 0, 0⟩) :
    glm.normalize v ≠ ⟨0, 0, 0⟩ := by
  intro h0
  have h1 := glm.length_normalize h
  rw [h0] at h1
  simp [glm.length, glm.dot] at h1

/-! ## The solver model meets the contracts -/

theorem quadratic_factor (a b c S t : ℝ) (ha : a ≠ 0) (hS : S ^ 2 = b ^ 2 - 4 * a * c) :
    a * (t - (-b - S) / (2 * a)) * (t - (-b + S) / (2 * a)) = a * t ^ 2 + b * t + c := by
  have h2 : a * (t - (-b - S) / (2 * a)) * (t - (-b + S) / (2 * a))
      = a * t ^ 2 + b * t + (b ^ 2 - S ^ 2) / (4 * a) := by
    field_simp
    ring
  rw [h2, hS]
  field_simp

theorem Tools.calculateQuadratic_contract : QuadraticContract Tools.calculateQuadratic := by
  intro a b c ha
  refine ⟨fun hneg => by simp [Tools.calculateQuadratic, ha, hneg], fun hpos => ?_⟩
  have hs : Real.sqrt (b ^ 2 - 4 * a * c) ^ 2 = b ^ 2 - 4 * a * c := Real.sq_sqrt hpos
  refine ⟨min ((-b - Real.sqrt (b ^ 2 - 4 * a * c)) / (2 * a))
      ((-b + Real.sqrt (b ^ 2 - 4 * a * c)) / (2 * a)),
    max ((-b - Real.sqrt (b ^ 2 - 4 * a * c)) / (2 * a))
      ((-b + Real.sqrt (b ^ 2 - 4 * a * c)) / (2 * a)), ?_, min_le_max, ?_⟩
  · simp [Tools.calculateQuadratic, ha, not_lt.mpr hpos]
  · intro t
    have key := quadratic_factor a b c _ t ha hs
    rcases le_total ((-b - Real.sqrt (b ^ 2 - 4 * a * c)) / (2 * a))
        ((-b + Real.sqrt (b ^ 2 - 4 * a * c)) / (2 * a)) with h | h
    · rw [min_eq_left h, max_eq_right h, key]
    · rw [min_eq_right h, max_eq_left h, ← key]
      ring

/-- Under the contract, a returned pair consists of two roots when `a ≠ 0`. -/
theorem QuadraticContract.factor {solve : ℝ → ℝ → ℝ → Option (ℝ × ℝ)}
    (h : QuadraticContract solve) {a b c t0 t1 : ℝ} (ha : a ≠ 0)
    (hs : solve a b c = some (t0, t1)) :
    0 ≤ b ^ 2 - 4 * a * c ∧ t0 ≤ t1 ∧ ∀ t : ℝ, a * t ^ 2 + b * t + c = a * (t - t0) * (t - t1) := by
  obtain ⟨hneg, hpos⟩ := h a b c ha
  by_cases hd : b ^ 2 - 4 * a * c < 0
  · rw [hneg hd] at hs
    exact absurd hs (by simp)
  · obtain ⟨u0, u1, hu, hle, hf⟩ := hpos (not_lt.mp hd)
    rw [hu] at hs
    simp only [Option.some.injEq, Prod.mk.injEq] at hs
    obtain ⟨rfl, rfl⟩ := hs
    exact ⟨not_lt.mp hd, hle, hf⟩

theorem Tools.calculateQuadratic_returnsRoots : ReturnsRoots Tools.calculateQuadratic := by
  intro a b c t0 t1 h
  by_cases ha : a = 0
  · simp [Tools.calculateQuadratic, ha] at h
  · obtain ⟨-, -, hf⟩ := Tools.calculateQuadratic_contract.factor ha h
    exact ⟨by rw [hf t0]; ring, by rw [hf t1]; ring⟩

theorem Tools.calculateQuadratic_degenerate : DegeneratePolicy Tools.calculateQuadratic := by
  intro b c
  left
  simp [Tools.calculateQuadratic]


/-! ## Root selection -/

/-- With ordered roots and `t1 ≥ 0`, the selected root is the smallest
non-negative root of `a (t - t0) (t - t1)`. -/
theorem selectRoot_spec {a t0 t1 : ℝ} (ha : a ≠ 0) (hle : t0 ≤ t1) (h1 : ¬ 0 > t1) :
    0 ≤ selectRoot t0 t1 ∧ a * (selectRoot t0 t1 - t0) * (selectRoot t0 t1 - t1) = 0 ∧
      ∀ s : ℝ, 0 ≤ s → a * (s - t0) * (s - t1) = 0 → selectRoot t0 t1 ≤ s := by
  have h1 : 0 ≤ t1 := not_lt.mp h1
  have hroot : ∀ s : ℝ, a * (s - t0) * (s - t1) = 0 → s = t0 ∨ s = t1 := by
    intro s hs
    rcases mul_eq_zero.mp hs with h | h
    · rcases mul_eq_zero.mp h with h | h
      · exact absurd h ha
      · exact Or.inl (by linarith)
    · exact Or.inr (by linarith)
  unfold selectRoot
  split_ifs with h0
  · refine ⟨h1, by ring, fun s hs hr => ?_⟩
    rcases hroot s hr with h | h
    · linarith
    · linarith
  · refine ⟨not_lt.mp h0, by ring, fun s hs hr => ?_⟩
    rcases hroot s hr with h | h
    · linarith
    · linarith

/-- A quadratic with negative discriminant has no real root. -/
theorem no_root_of_discriminant_neg {a b c : ℝ} (h : b ^ 2 - 4 * a * c < 0) (t : ℝ) :
    a * t ^ 2 + b * t + c ≠ 0 := by
  intro ht
  have h2 : (2 * a * t + b) ^ 2 = b ^ 2 - 4 * a * c + 4 * a * (a * t ^ 2 + b * t + c) := by
    ring
  rw [ht] at h2
  nlinarith [sq_nonneg (2 * a * t + b)]

/-! ## Sphere -/

theorem Sphere._radius_eq : Sphere._radius = 1 := by
  unfold Sphere._radius
  norm_num

/-- The sphere quadratic is the surface equation along the ray. -/
theorem Sphere.quadratic_eq (e d : vec3) (t : ℝ) :
    glm.dot d d * t ^ 2 + 2 * glm.dot d e * t + (glm.dot e e - Sphere._radius ^ 2)
      = glm.dot (e + t * d) (e + t * d) - 1 := by
  rw [Sphere._radius_eq]
  simp only [glm.dot, vec3.add_x, vec3.add_y, vec3.add_z, vec3.mul_x, vec3.mul_y, vec3.mul_z]
  ring

theorem Sphere.intersect_eq_some_iff {Material : Type} (solve : ℝ → ℝ → ℝ → Option (ℝ × ℝ))
    (G : Geometry Material) (ray : Ray) (r : Intersection Material) :
    Sphere.intersect solve G ray = some r ↔
      ∃ p, Sphere.intersectionPoint solve G ray = some p ∧ r = Sphere.record G ray p := by
  unfold Sphere.intersect
  cases Sphere.intersectionPoint solve G ray with
  | none => simp
  | some p => simp [eq_comm]

/-- C1. Sphere nearest hit: for a solver meeting the contract and a ray whose
object-space direction `d` is non-zero (`e` the object-space origin),
`Sphere::intersect` returns a record if and only if some `t ≥ 0` has
`|e + t d|² = 1`, and the object-space hit point of the record is `e + t d` for
the smallest such `t`. -/
theorem Sphere.intersect_nearest_hit {Material : Type} (solve : ℝ → ℝ → ℝ → Option (ℝ × ℝ))
    (hsolve : QuadraticContract solve) (G : Geometry Material) (ray : Ray)
    (hd : G.transformedRayDirection ray ≠ ⟨0, 0, 0⟩) :
    ((Sphere.intersect solve G ray).isSome ↔
        ∃ t : ℝ, 0 ≤ t ∧
          glm.dot (G.transformedRayOrigin ray + t * G.transformedRayDirection ray)
            (G.transformedRayOrigin ray + t * G.transformedRayDirection ray) = 1) ∧
      ∀ r, Sphere.intersect solve G ray = some r →
        ∃ (p : vec3) (t : ℝ), Sphere.intersectionPoint solve G ray = some p ∧
          r = Sphere.record G ray p ∧
          p = G.transformedRayOrigin ray + t * G.transformedRayDirection ray ∧
          0 ≤ t ∧ glm.dot p p = 1 ∧
          ∀ s : ℝ, 0 ≤ s →
            glm.dot (G.transformedRayOrigin ray + s * G.transformedRayDirection ray)
              (G.transformedRayOrigin ray + s * G.transformedRayDirection ray) = 1 → t ≤ s := by
  have ha : glm.dot (G.transformedRayDirection ray) (G.transformedRayDirection ray) ≠ 0 :=
    (glm.dot_self_pos hd).ne.symm
  have hq := Sphere.quadratic_eq (G.transformedRayOrigin ray) (G.transformedRayDirection ray)
  have hsurf : ∀ t : ℝ,
      glm.dot (G.transformedRayOrigin ray + t * G.transformedRayDirection ray)
          (G.transformedRayOrigin ray + t * G.transformedRayDirection ray) = 1 ↔
        glm.dot (G.transformedRayDirection ray) (G.transformedRayDirection ray) * t ^ 2
          + 2 * glm.dot (G.transformedRayDirection ray) (G.transformedRayOrigin ray) * t
          + (glm.dot (G.transformedRayOrigin ray) (G.transformedRayOrigin ray)
              - Sphere._radius ^ 2) = 0 := by
    intro t
    rw [hq t]
    constructor <;> intro h <;> linarith
  cases hs : solve (glm.dot (G.transformedRayDirection ray) (G.transformedRayDirection ray))
      (2 * glm.dot (G.transformedRayDirection ray) (G.transformedRayOrigin ray))
      (glm.dot (G.transformedRayOrigin ray) (G.transformedRayOrigin ray) - Sphere._radius ^ 2) with
  | none =>
    have hnone : Sphere.intersectionPoint solve G ray = none := by
      simp only [Sphere.intersectionPoint, hs]
    have hdisc : (2 * glm.dot (G.transformedRayDirection ray) (G.transformedRayOrigin ray)) ^ 2
        - 4 * glm.dot (G.transformedRayDirection ray) (G.transformedRayDirection ray)
          * (glm.dot (G.transformedRayOrigin ray) (G.transformedRayOrigin ray)
              - Sphere._radius ^ 2) < 0 := by
      by_contra hcon
      obtain ⟨u0, u1, hu, -, -⟩ := (hsolve _ _ _ ha).2 (not_lt.mp hcon)
      rw [hu] at hs
      exact absurd hs (by simp)
    refine ⟨?_, fun r hr => ?_⟩
    · rw [Sphere.intersect, hnone]
      simp only [Option.map_none', Option.isSome_none, Bool.false_eq_true, false_iff,
        not_exists, not_and]
      intro t _ ht
      exact no_root_of_discriminant_neg hdisc t ((hsurf t).mp ht)
    · obtain ⟨p, hp, -⟩ := (Sphere.intersect_eq_some_iff solve G ray r).mp hr
      rw [hnone] at hp
      exact absurd hp (by simp)
  | some pr =>
    obtain ⟨t0, t1⟩ := pr
    obtain ⟨-, hle, hf⟩ := hsolve.factor ha hs
    by_cases h1 : 0 > t1
    · have hnone : Sphere.intersectionPoint solve G ray = none := by
        simp only [Sphere.intersectionPoint, hs, h1, if_true]
      refine ⟨?_, fun r hr => ?_⟩
      · rw [Sphere.intersect, hnone]
        simp only [Option.map_none', Option.isSome_none, Bool.false_eq_true, false_iff,
          not_exists, not_and]
        intro t ht hsur
        have h0 := (hsurf t).mp hsur
        rw [hf t] at h0
        rcases mul_eq_zero.mp h0 with h | h
        · rcases mul_eq_zero.mp h with h | h
          · exact ha h
          · linarith
        · linarith
      · obtain ⟨p, hp, -⟩ := (Sphere.intersect_eq_some_iff solve G ray r).mp hr
        rw [hnone] at hp
        exact absurd hp (by simp)
    · have hsome : Sphere.intersectionPoint solve G ray
          = some (G.transformedRayOrigin ray
              + selectRoot t0 t1 * G.transformedRayDirection ray) := by
        simp only [Sphere.intersectionPoint, hs, h1, if_false]
      obtain ⟨hnn, hroot, hmin⟩ := selectRoot_spec ha hle h1
      have hon : glm.dot
          (G.transformedRayOrigin ray + selectRoot t0 t1 * G.transformedRayDirection ray)
          (G.transformedRayOrigin ray + selectRoot t0 t1 * G.transformedRayDirection ray) = 1 := by
        rw [hsurf, hf]
        exact hroot
      refine ⟨?_, fun r hr => ?_⟩
      · rw [Sphere.intersect, hsome]
        simp only [Option.map_some', Option.isSome_some, true_iff]
        exact ⟨selectRoot t0 t1, hnn, hon⟩
      · obtain ⟨p, hp, hr⟩ := (Sphere.intersect_eq_some_iff solve G ray r).mp hr
        rw [hsome] at hp
        simp only [Option.some.injEq] at hp
        subst hp
        refine ⟨_, selectRoot t0 t1, hsome, hr, rfl, hnn, hon, fun s hs0 hsur => ?_⟩
        apply hmin s hs0
        rw [← hf]
        exact (hsurf s).mp hsur


/-! ## Evaluating transforms -/

theorem toVec3_mulVec_one (v : vec3) (w : ℝ) :
    toVec3 (Matrix.mulVec (1 : mat4) (mkVec4 v w)) = v := by
  simp [toVec3, mkVec4]

theorem glm.rotate_zero_x : glm.rotate 1 0 ⟨1, 0, 0⟩ = 1 := by
  ext i j
  fin_cases i <;> fin_cases j <;>
    simp [glm.rotate, glm.normalize, glm.dot, Matrix.vecHead, Matrix.vecTail]

theorem glm.rotate_zero_y : glm.rotate 1 0 ⟨0, 1, 0⟩ = 1 := by
  ext i j
  fin_cases i <;> fin_cases j <;>
    simp [glm.rotate, glm.normalize, glm.dot, Matrix.vecHead, Matrix.vecTail]

theorem glm.rotate_zero_z : glm.rotate 1 0 ⟨0, 0, 1⟩ = 1 := by
  ext i j
  fin_cases i <;> fin_cases j <;>
    simp [glm.rotate, glm.normalize, glm.dot, Matrix.vecHead, Matrix.vecTail]

/-- The transform of an unrotated geometry. -/
theorem Geometry.new_unrotated_transform {Material : Type} (p s : vec3) (mtl : Material) :
    (Geometry.new p ⟨0, 0, 0⟩ s mtl)._transformationMatrix
      = !![s.x, 0, 0, p.x; 0, s.y, 0, p.y; 0, 0, s.z, p.z; 0, 0, 0, 1] := by
  simp only [Geometry.new, glm.rotate_zero_x, glm.rotate_zero_y, glm.rotate_zero_z, mul_one]
  ext i j
  fin_cases i <;> fin_cases j <;>
    simp [glm.translate, glm.scale, Matrix.mul_apply, Fin.sum_univ_four, Matrix.vecHead,
      Matrix.vecTail]

/-- The stored inverse of an unrotated geometry with a non-degenerate scale. -/
theorem Geometry.new_unrotated_inverse {Material : Type} (p s : vec3) (mtl : Material)
    (hx : s.x ≠ 0) (hy : s.y ≠ 0) (hz : s.z ≠ 0) :
    (Geometry.new p ⟨0, 0, 0⟩ s mtl)._transformationMatrixInverse
      = !![1 / s.x, 0, 0, -p.x / s.x; 0, 1 / s.y, 0, -p.y / s.y; 0, 0, 1 / s.z, -p.z / s.z;
           0, 0, 0, 1] := by
  have h := Geometry.new_unrotated_transform p s mtl
  have hinv : (Geometry.new p ⟨0, 0, 0⟩ s mtl)._transformationMatrixInverse
      = glm.inverse (Geometry.new p ⟨0, 0, 0⟩ s mtl)._transformationMatrix := rfl
  rw [hinv, h, glm.inverse]
  apply Matrix.inv_eq_right_inv
  ext i j
  fin_cases i <;> fin_cases j <;>
    simp [Matrix.mul_apply, Fin.sum_univ_four, Matrix.vecHead, Matrix.vecTail] <;>
    field_simp <;> ring

theorem unitGeometry_isIdentity : unitGeometry.IsIdentity := by
  constructor
  · rw [unitGeometry, Geometry.new_unrotated_transform]
    ext i j
    fin_cases i <;> fin_cases j <;> simp [Matrix.vecHead, Matrix.vecTail]
  · rw [unitGeometry, Geometry.new_unrotated_inverse _ _ _ (by norm_num) (by norm_num)
      (by norm_num)]
    ext i j
    fin_cases i <;> fin_cases j <;> simp [Matrix.vecHead, Matrix.vecTail]

theorem Geometry.IsIdentity.transformedRayOrigin {Material : Type} {G : Geometry Material}
    (h : G.IsIdentity) (ray : Ray) : G.transformedRayOrigin ray = ray.origin := by
  rw [Geometry.transformedRayOrigin, h.2, toVec3_mulVec_one]

theorem Geometry.IsIdentity.transformedRayDirection {Material : Type} {G : Geometry Material}
    (h : G.IsIdentity) (ray : Ray) : G.transformedRayDirection ray = ray.direction := by
  rw [Geometry.transformedRayDirection, h.2, toVec3_mulVec_one]

theorem Geometry.IsIdentity.normalToWorld {Material : Type} {G : Geometry Material}
    (h : G.IsIdentity) (n : vec3) : G.normalToWorld n = n := by
  rw [Geometry.normalToWorld, h.2, glm.transpose, Matrix.transpose_one, toVec3_mulVec_one]

theorem Geometry.IsIdentity.returnedPoint {Material : Type} {G : Geometry Material}
    (h : G.IsIdentity) (p : vec3) : G.returnedPoint p = p := by
  rw [Geometry.returnedPoint, h.2, toVec3_mulVec_one]

/-- Under the contract the solver returns exactly the ordered pair of roots of a
factored quadratic. -/
theorem QuadraticContract.eq_some {solve : ℝ → ℝ → ℝ → Option (ℝ × ℝ)}
    (h : QuadraticContract solve) {a b c t0 t1 : ℝ} (ha : a ≠ 0) (hle : t0 ≤ t1)
    (hf : ∀ t : ℝ, a * t ^ 2 + b * t + c = a * (t - t0) * (t - t1)) :
    solve a b c = some (t0, t1) := by
  have h0 := hf 0
  have h1 := hf 1
  have hm := hf (-1)
  have hc : c = a * (t0 * t1) := by linarith
  have hb : b = -(a * (t0 + t1)) := by linarith
  have hdisc : 0 ≤ b ^ 2 - 4 * a * c := by
    have : b ^ 2 - 4 * a * c = (a * (t1 - t0)) ^ 2 := by
      rw [hb, hc]
      ring
    rw [this]
    exact sq_nonneg _
  obtain ⟨u0, u1, hu, hule, huf⟩ := (h a b c ha).2 hdisc
  have e0 := huf 0
  have e1 := huf 1
  have em := huf (-1)
  have hprod : a * (u0 * u1) = a * (t0 * t1) := by linarith
  have hsum : a * (u0 + u1) = a * (t0 + t1) := by linarith
  have hprod2 : u0 * u1 = t0 * t1 := mul_left_cancel₀ ha hprod
  have hsum2 : u0 + u1 = t0 + t1 := mul_left_cancel₀ ha hsum
  have hsq : (u1 - u0) ^ 2 = (t1 - t0) ^ 2 := by
    have e1 : (u1 - u0) ^ 2 = (u0 + u1) ^ 2 - 4 * (u0 * u1) := by ring
    have e2 : (t1 - t0) ^ 2 = (t0 + t1) ^ 2 - 4 * (t0 * t1) := by ring
    rw [e1, e2, hprod2, hsum2]
  have habs := (sq_eq_sq_iff_abs_eq_abs _ _).mp hsq
  rw [abs_of_nonneg (sub_nonneg.mpr hule), abs_of_nonneg (sub_nonneg.mpr hle)] at habs
  have hu0 : u0 = t0 := by linarith
  have hu1 : u1 = t1 := by linarith
  rw [hu, hu0, hu1]


/-! ## Sphere hits -/

/-- With a solver that returns roots, the object-space hit point of the sphere
lies on the unit sphere. -/
theorem Sphere.intersectionPoint_on_sphere {Material : Type}
    {solve : ℝ → ℝ → ℝ → Option (ℝ × ℝ)} (hr : ReturnsRoots solve) {G : Geometry Material}
    {ray : Ray} {p : vec3} (hp : Sphere.intersectionPoint solve G ray = some p) :
    glm.dot p p = 1 := by
  unfold Sphere.intersectionPoint at hp
  cases hs : solve
      (glm.dot (G.transformedRayDirection ray) (G.transformedRayDirection ray))
      (2 * glm.dot (G.transformedRayDirection ray) (G.transformedRayOrigin ray))
      (glm.dot (G.transformedRayOrigin ray) (G.transformedRayOrigin ray) - Sphere._radius ^ 2) with
  | none =>
    simp only [hs] at hp
    exact absurd hp (by simp)
  | some pr =>
    obtain ⟨t0, t1⟩ := pr
    simp only [hs] at hp
    obtain ⟨h0, h1⟩ := hr _ _ _ _ _ hs
    split_ifs at hp with hneg
    simp only [Option.some.injEq] at hp
    subst hp
    have hq := Sphere.quadratic_eq (G.transformedRayOrigin ray) (G.transformedRayDirection ray)
      (selectRoot t0 t1)
    have hsel : glm.dot (G.transformedRayDirection ray) (G.transformedRayDirection ray)
          * selectRoot t0 t1 ^ 2
        + 2 * glm.dot (G.transformedRayDirection ray) (G.transformedRayOrigin ray)
          * selectRoot t0 t1
        + (glm.dot (G.transformedRayOrigin ray) (G.transformedRayOrigin ray)
            - Sphere._radius ^ 2) = 0 := by
      unfold selectRoot
      split_ifs
      · exact h1
      · exact h0
    linarith

/-- The object-space hit point of a sphere whose object-space ray starts at
`(0,0,5)` with direction `(0,0,-1)` is `(0,0,1)`. -/
theorem Sphere.intersectionPoint_sample {Material : Type}
    {solve : ℝ → ℝ → ℝ → Option (ℝ × ℝ)} (hq : QuadraticContract solve)
    {G : Geometry Material} {ray : Ray} (he : G.transformedRayOrigin ray = ⟨0, 0, 5⟩)
    (hd : G.transformedRayDirection ray = ⟨0, 0, -1⟩) :
    Sphere.intersectionPoint solve G ray = some ⟨0, 0, 1⟩ := by
  have hs : solve
      (glm.dot (G.transformedRayDirection ray) (G.transformedRayDirection ray))
      (2 * glm.dot (G.transformedRayDirection ray) (G.transformedRayOrigin ray))
      (glm.dot (G.transformedRayOrigin ray) (G.transformedRayOrigin ray) - Sphere._radius ^ 2)
      = some (4, 6) := by
    apply hq.eq_some
    · rw [hd]
      norm_num [glm.dot]
    · norm_num
    · intro t
      rw [he, hd, Sphere._radius_eq]
      simp only [glm.dot]
      ring
  unfold Sphere.intersectionPoint
  simp only [hs]
  rw [he, hd]
  have h6 : ¬ (0 : ℝ) > 6 := by norm_num
  have h4 : ¬ (0 : ℝ) > 4 := by norm_num
  simp only [h6, if_false, selectRoot, h4, Option.some.injEq]
  ext <;> norm_num

theorem sphereRay_origin : unitGeometry.transformedRayOrigin sphereRay = ⟨0, 0, 5⟩ :=
  unitGeometry_isIdentity.transformedRayOrigin sphereRay

theorem sphereRay_direction : unitGeometry.transformedRayDirection sphereRay = ⟨0, 0, -1⟩ :=
  unitGeometry_isIdentity.transformedRayDirection sphereRay

/-- The record of a sphere hit under the identity transform. -/
theorem Sphere.record_identity {Material : Type} {G : Geometry Material} (hG : G.IsIdentity)
    (ray : Ray) {p : vec3} (hp : glm.dot p p = 1) :
    Sphere.record G ray p = ⟨ray, p, p, ⟨some 1, some 1⟩, G._material⟩ := by
  simp only [Sphere.record, hG.normalToWorld, hG.returnedPoint,
    glm.normalize_of_dot_self_eq_one hp]

/-- Witness for C1: the sphere example, with the solver model and the identity
transform. -/
theorem Sphere.intersect_nearest_hit_witness :
    unitGeometry.transformedRayDirection sphereRay ≠ ⟨0, 0, 0⟩ ∧
      ((Sphere.intersect Tools.calculateQuadratic unitGeometry sphereRay).isSome ↔
        ∃ t : ℝ, 0 ≤ t ∧
          glm.dot
            (unitGeometry.transformedRayOrigin sphereRay
              + t * unitGeometry.transformedRayDirection sphereRay)
            (unitGeometry.transformedRayOrigin sphereRay
              + t * unitGeometry.transformedRayDirection sphereRay) = 1) := by
  have hd : unitGeometry.transformedRayDirection sphereRay ≠ ⟨0, 0, 0⟩ := by
    rw [sphereRay_direction]
    intro h
    have hz := congrArg vec3.z h
    norm_num at hz
  exact ⟨hd, (Sphere.intersect_nearest_hit Tools.calculateQuadratic
    Tools.calculateQuadratic_contract unitGeometry sphereRay hd).1⟩

/-- C5. Sphere under the identity transform: for a solver that meets the
contract and returns roots, every returned point has length one and the returned
normal equals the returned point; the ray with origin `(0,0,5)` and direction
`(0,0,-1)` yields point `(0,0,1)` and normal `(0,0,1)`. -/
theorem Sphere.intersect_identity {Material : Type} (solve : ℝ → ℝ → ℝ → Option (ℝ × ℝ))
    (hq : QuadraticContract solve) (hr : ReturnsRoots solve) (G : Geometry Material)
    (hG : G.IsIdentity) :
    (∀ ray r, Sphere.intersect solve G ray = some r →
        glm.length r.point = 1 ∧ r.normal = r.point) ∧
      ∃ r, Sphere.intersect solve G sphereRay = some r ∧
        r.point = ⟨0, 0, 1⟩ ∧ r.normal = ⟨0, 0, 1⟩ := by
  constructor
  · intro ray r hrec
    obtain ⟨p, hp, rfl⟩ := (Sphere.intersect_eq_some_iff solve G ray r).mp hrec
    have hon := Sphere.intersectionPoint_on_sphere hr hp
    rw [Sphere.record_identity hG ray hon]
    exact ⟨by rw [glm.length, hon, Real.sqrt_one], rfl⟩
  · have hp : Sphere.intersectionPoint solve G sphereRay = some ⟨0, 0, 1⟩ :=
      Sphere.intersectionPoint_sample hq (hG.transformedRayOrigin sphereRay)
        (hG.transformedRayDirection sphereRay)
    have hon : glm.dot (⟨0, 0, 1⟩ : vec3) ⟨0, 0, 1⟩ = 1 := by norm_num [glm.dot]
    refine ⟨Sphere.record G sphereRay ⟨0, 0, 1⟩, ?_, ?_, ?_⟩
    · rw [Sphere.intersect, hp, Option.map_some']
    · rw [Sphere.record_identity hG sphereRay hon]
    · rw [Sphere.record_identity hG sphereRay hon]

/-- Witness for C5: the solver model and the unit geometry. -/
theorem Sphere.intersect_identity_witness :
    (∀ ray r, Sphere.intersect Tools.calculateQuadratic unitGeometry ray = some r →
        glm.length r.point = 1 ∧ r.normal = r.point) ∧
      ∃ r, Sphere.intersect Tools.calculateQuadratic unitGeometry sphereRay = some r ∧
        r.point = ⟨0, 0, 1⟩ ∧ r.normal = ⟨0, 0, 1⟩ :=
  Sphere.intersect_identity Tools.calculateQuadratic Tools.calculateQuadratic_contract
    Tools.calculateQuadratic_returnsRoots unitGeometry unitGeometry_isIdentity


/-! ## Point mapping -/

theorem shiftedGeometry_inverse :
    shiftedGeometry._transformationMatrixInverse
      = !![1, 0, 0, -1; 0, 1, 0, 0; 0, 0, 1, 0; 0, 0, 0, 1] := by
  rw [shiftedGeometry, Geometry.new_unrotated_inverse _ _ _ (by norm_num) (by norm_num)
    (by norm_num)]
  ext i j
  fin_cases i <;> fin_cases j <;> simp [Matrix.vecHead, Matrix.vecTail]

theorem shiftedGeometry_transform :
    shiftedGeometry._transformationMatrix
      = !![1, 0, 0, 1; 0, 1, 0, 0; 0, 0, 1, 0; 0, 0, 0, 1] := by
  rw [shiftedGeometry, Geometry.new_unrotated_transform]

/-- C2. World-space hit point, evaluated on a sphere moved by one unit along X
and the ray from `(1,0,5)` towards `-Z`: the object-space hit point is `(0,0,1)`,
the forward transform maps it to `(1,0,1)`, which is the point of the ray at
`t = 4`, but the returned point is `(-1,0,1)`, the image under the inverse
transform, and no point of the ray. -/
theorem Sphere.intersect_point_off_ray (solve : ℝ → ℝ → ℝ → Option (ℝ × ℝ))
    (hq : QuadraticContract solve) :
    ∃ r, Sphere.intersect solve shiftedGeometry shiftedRay = some r ∧
      Sphere.intersectionPoint solve shiftedGeometry shiftedRay = some ⟨0, 0, 1⟩ ∧
      shiftedGeometry.forward ⟨0, 0, 1⟩ = ⟨1, 0, 1⟩ ∧
      shiftedRay.origin + (4 : ℝ) * shiftedRay.direction = ⟨1, 0, 1⟩ ∧
      r.point = ⟨-1, 0, 1⟩ ∧
      ∀ t : ℝ, shiftedRay.origin + t * shiftedRay.direction ≠ r.point := by
  have he : shiftedGeometry.transformedRayOrigin shiftedRay = ⟨0, 0, 5⟩ := by
    rw [Geometry.transformedRayOrigin, shiftedGeometry_inverse]
    ext <;>
      simp [toVec3, mkVec4, shiftedRay, Matrix.mulVec, Matrix.dotProduct, Fin.sum_univ_four,
        Matrix.vecHead, Matrix.vecTail]
  have hd : shiftedGeometry.transformedRayDirection shiftedRay = ⟨0, 0, -1⟩ := by
    rw [Geometry.transformedRayDirection, shiftedGeometry_inverse]
    ext <;>
      simp [toVec3, mkVec4, shiftedRay, Matrix.mulVec, Matrix.dotProduct, Fin.sum_univ_four,
        Matrix.vecHead, Matrix.vecTail]
  have hp := Sphere.intersectionPoint_sample hq he hd
  have hpt : shiftedGeometry.returnedPoint ⟨0, 0, 1⟩ = ⟨-1, 0, 1⟩ := by
    rw [Geometry.returnedPoint, shiftedGeometry_inverse]
    ext <;>
      simp [toVec3, mkVec4, Matrix.mulVec, Matrix.dotProduct, Fin.sum_univ_four,
        Matrix.vecHead, Matrix.vecTail]
  refine ⟨Sphere.record shiftedGeometry shiftedRay ⟨0, 0, 1⟩, ?_, hp, ?_, ?_, hpt, ?_⟩
  · rw [Sphere.intersect, hp, Option.map_some']
  · rw [Geometry.forward, shiftedGeometry_transform]
    ext <;>
      simp [toVec3, mkVec4, Matrix.mulVec, Matrix.dotProduct, Fin.sum_univ_four,
        Matrix.vecHead, Matrix.vecTail]
  · ext <;> norm_num [shiftedRay]
  · intro t h
    have hx := congrArg vec3.x h
    have hx2 : (Sphere.record shiftedGeometry shiftedRay ⟨0, 0, 1⟩).point.x = -1 := by
      show (shiftedGeometry.returnedPoint ⟨0, 0, 1⟩).x = -1
      rw [hpt]
    rw [hx2] at hx
    simp [shiftedRay] at hx
    norm_num at hx

/-- Witness for C2: the solver model. -/
theorem Sphere.intersect_point_off_ray_witness :
    ∃ r, Sphere.intersect Tools.calculateQuadratic shiftedGeometry shiftedRay = some r ∧
      Sphere.intersectionPoint Tools.calculateQuadratic shiftedGeometry shiftedRay
        = some ⟨0, 0, 1⟩ ∧
      shiftedGeometry.forward ⟨0, 0, 1⟩ = ⟨1, 0, 1⟩ ∧
      shiftedRay.origin + (4 : ℝ) * shiftedRay.direction = ⟨1, 0, 1⟩ ∧
      r.point = ⟨-1, 0, 1⟩ ∧
      ∀ t : ℝ, shiftedRay.origin + t * shiftedRay.direction ≠ r.point :=
  Sphere.intersect_point_off_ray Tools.calculateQuadratic Tools.calculateQuadratic_contract


/-! ## Normals under an invertible affine transform -/

/-- Scaling the first argument of a dot product. -/
theorem glm.dot_mul_left (k : ℝ) (u v : vec3) : glm.dot (k * u) v = k * glm.dot u v := by
  simp only [glm.dot, vec3.mul_x, vec3.mul_y, vec3.mul_z]
  ring

/-- The object-space normal is recovered from its world image by the transpose
of the linear part of the transform. -/
theorem Geometry.Invertible.normal_roundtrip {Material : Type} {G : Geometry Material}
    (h : G.Invertible) (n : vec3) :
    n.x = G._transformationMatrix 0 0 * (G.normalToWorld n).x
        + G._transformationMatrix 1 0 * (G.normalToWorld n).y
        + G._transformationMatrix 2 0 * (G.normalToWorld n).z ∧
    n.y = G._transformationMatrix 0 1 * (G.normalToWorld n).x
        + G._transformationMatrix 1 1 * (G.normalToWorld n).y
        + G._transformationMatrix 2 1 * (G.normalToWorld n).z ∧
    n.z = G._transformationMatrix 0 2 * (G.normalToWorld n).x
        + G._transformationMatrix 1 2 * (G.normalToWorld n).y
        + G._transformationMatrix 2 2 * (G.normalToWorld n).z := by
  have key : Matrix.mulVec (Matrix.transpose G._transformationMatrix)
      (Matrix.mulVec (Matrix.transpose G._transformationMatrixInverse) (mkVec4 n 0))
      = mkVec4 n 0 := by
    rw [Matrix.mulVec_mulVec, ← Matrix.transpose_mul, h.inv_mul, Matrix.transpose_one,
      Matrix.one_mulVec]
  have h30 := h.affine 0
  have h31 := h.affine 1
  have h32 := h.affine 2
  simp only [Fin.reduceEq, if_false] at h30 h31 h32
  have k0 := congrFun key 0
  have k1 := congrFun key 1
  have k2 := congrFun key 2
  rw [Matrix.mulVec, Matrix.dotProduct, Fin.sum_univ_four] at k0 k1 k2
  simp only [Matrix.transpose_apply, h30, h31, h32, zero_mul, add_zero] at k0 k1 k2
  refine ⟨?_, ?_, ?_⟩
  · rw [show n.x = mkVec4 n 0 0 from rfl, ← k0]
    rfl
  · rw [show n.y = mkVec4 n 0 1 from rfl, ← k1]
    rfl
  · rw [show n.z = mkVec4 n 0 2 from rfl, ← k2]
    rfl

/-- The world image of a non-zero object-space normal is non-zero. -/
theorem Geometry.Invertible.normalToWorld_ne_zero {Material : Type} {G : Geometry Material}
    (h : G.Invertible) {n : vec3} (hn : n ≠ ⟨0, 0, 0⟩) : G.normalToWorld n ≠ ⟨0, 0, 0⟩ := by
  intro h0
  obtain ⟨hx, hy, hz⟩ := h.normal_roundtrip n
  rw [h0] at hx hy hz
  apply hn
  ext
  · simpa using hx
  · simpa using hy
  · simpa using hz

/-- The world image of a normal against the image of a vector under the linear
part of the transform: the dot product is the object-space one. -/
theorem Geometry.Invertible.dot_normalToWorld_linearPart {Material : Type}
    {G : Geometry Material} (h : G.Invertible) (n t : vec3) :
    glm.dot (G.normalToWorld n) (G.linearPart t) = glm.dot n t := by
  obtain ⟨hx, hy, hz⟩ := h.normal_roundtrip n
  have e : glm.dot n t
      = (G._transformationMatrix 0 0 * (G.normalToWorld n).x
          + G._transformationMatrix 1 0 * (G.normalToWorld n).y
          + G._transformationMatrix 2 0 * (G.normalToWorld n).z) * t.x
        + (G._transformationMatrix 0 1 * (G.normalToWorld n).x
          + G._transformationMatrix 1 1 * (G.normalToWorld n).y
          + G._transformationMatrix 2 1 * (G.normalToWorld n).z) * t.y
        + (G._transformationMatrix 0 2 * (G.normalToWorld n).x
          + G._transformationMatrix 1 2 * (G.normalToWorld n).y
          + G._transformationMatrix 2 2 * (G.normalToWorld n).z) * t.z := by
    rw [← hx, ← hy, ← hz]
    rfl
  rw [e]
  simp only [glm.dot, Geometry.linearPart, toVec3, mkVec4, Matrix.mulVec, Matrix.dotProduct,
    Fin.sum_univ_four]
  simp only [Matrix.cons_val_zero, Matrix.cons_val_one, Matrix.head_cons, Matrix.cons_val_two,
    Matrix.tail_cons, Matrix.cons_val_three, mul_zero, add_zero]
  ring

/-- A vector of squared length one is not the zero vector. -/
theorem glm.ne_zero_of_dot_self_eq_one {v : vec3} (h : glm.dot v v = 1) : v ≠ ⟨0, 0, 0⟩ := by
  intro h0
  rw [h0] at h
  norm_num [glm.dot] at h


/-- An unrotated geometry with a non-degenerate scale is invertible. -/
theorem Geometry.new_unrotated_invertible {Material : Type} (p s : vec3) (mtl : Material)
    (hx : s.x ≠ 0) (hy : s.y ≠ 0) (hz : s.z ≠ 0) :
    (Geometry.new p ⟨0, 0, 0⟩ s mtl).Invertible := by
  have hM := Geometry.new_unrotated_transform p s mtl
  have hI := Geometry.new_unrotated_inverse p s mtl hx hy hz
  have h1 : (Geometry.new p ⟨0, 0, 0⟩ s mtl)._transformationMatrix
      * (Geometry.new p ⟨0, 0, 0⟩ s mtl)._transformationMatrixInverse = 1 := by
    rw [hM, hI]
    ext i j
    fin_cases i <;> fin_cases j <;>
      simp [Matrix.mul_apply, Fin.sum_univ_four, Matrix.vecHead, Matrix.vecTail] <;>
      field_simp <;> ring
  refine ⟨h1, (Matrix.mul_eq_one_comm).mp h1, ?_⟩
  intro j
  rw [hM]
  fin_cases j <;> simp [Matrix.vecHead, Matrix.vecTail]

/-- The object-space ray of an unrotated geometry. -/
theorem Geometry.new_unrotated_ray {Material : Type} (p s : vec3) (mtl : Material)
    (hx : s.x ≠ 0) (hy : s.y ≠ 0) (hz : s.z ≠ 0) (ray : Ray) :
    (Geometry.new p ⟨0, 0, 0⟩ s mtl).transformedRayOrigin ray
        = ⟨(ray.origin.x - p.x) / s.x, (ray.origin.y - p.y) / s.y,
            (ray.origin.z - p.z) / s.z⟩ ∧
      (Geometry.new p ⟨0, 0, 0⟩ s mtl).transformedRayDirection ray
        = ⟨ray.direction.x / s.x, ray.direction.y / s.y, ray.direction.z / s.z⟩ := by
  have hI := Geometry.new_unrotated_inverse p s mtl hx hy hz
  constructor
  · rw [Geometry.transformedRayOrigin, hI]
    ext <;>
      simp [toVec3, mkVec4, Matrix.mulVec, Matrix.dotProduct, Fin.sum_univ_four,
        Matrix.vecHead, Matrix.vecTail] <;>
      field_simp <;> ring
  · rw [Geometry.transformedRayDirection, hI]
    ext <;>
      simp [toVec3, mkVec4, Matrix.mulVec, Matrix.dotProduct, Fin.sum_univ_four,
        Matrix.vecHead, Matrix.vecTail] <;>
      field_simp

theorem stretchedGeometry_invertible : stretchedGeometry.Invertible :=
  Geometry.new_unrotated_invertible _ _ _ (by norm_num) (by norm_num) (by norm_num)

theorem stretchedGeometry_origin :
    stretchedGeometry.transformedRayOrigin sphereRay = ⟨0, 0, 5⟩ := by
  rw [stretchedGeometry, (Geometry.new_unrotated_ray _ _ _ (by norm_num) (by norm_num)
    (by norm_num) sphereRay).1]
  ext <;> norm_num [sphereRay]

theorem stretchedGeometry_direction :
    stretchedGeometry.transformedRayDirection sphereRay = ⟨0, 0, -1⟩ := by
  rw [stretchedGeometry, (Geometry.new_unrotated_ray _ _ _ (by norm_num) (by norm_num)
    (by norm_num) sphereRay).2]
  ext <;> norm_num [sphereRay]

/-! ## Cylinder hits -/

theorem Cylinder.cylinder_intersect_eq_some_iff {Material : Type} (solve : ℝ → ℝ → ℝ → Option (ℝ × ℝ))
    (G : Geometry Material) (ray : Ray) (r : Intersection Material) :
    Cylinder.intersect solve G ray = some r ↔
      ∃ p, Cylinder.intersectionPoint solve G ray = some p ∧ r = Cylinder.record G ray p := by
  unfold Cylinder.intersect
  cases Cylinder.intersectionPoint solve G ray with
  | none => simp
  | some p => simp [eq_comm]

/-- The cylinder quadratic is the lateral-surface equation along the ray. -/
theorem Cylinder.lateral_quadratic_eq (e d : vec3) (t : ℝ) :
    (d.x ^ 2 + d.z ^ 2) * t ^ 2 + (2 * e.x * d.x + 2 * e.z * d.z) * t + (e.x ^ 2 + e.z ^ 2 - 1)
      = (e + t * d).x ^ 2 + (e + t * d).z ^ 2 - 1 := by
  simp only [vec3.add_x, vec3.add_z, vec3.mul_x, vec3.mul_z]
  ring

/-- With a solver that returns roots, the object-space hit point of the cylinder
lies on the clipped lateral surface. -/
theorem Cylinder.intersectionPoint_on_surface {Material : Type}
    {solve : ℝ → ℝ → ℝ → Option (ℝ × ℝ)} (hr : ReturnsRoots solve) {G : Geometry Material}
    {ray : Ray} {p : vec3} (hp : Cylinder.intersectionPoint solve G ray = some p) :
    p.x ^ 2 + p.z ^ 2 = 1 ∧ -1 ≤ p.y ∧ p.y ≤ 1 := by
  unfold Cylinder.intersectionPoint at hp
  cases hs : solve
      ((G.transformedRayDirection ray).x ^ 2 + (G.transformedRayDirection ray).z ^ 2)
      (2 * (G.transformedRayOrigin ray).x * (G.transformedRayDirection ray).x
        + 2 * (G.transformedRayOrigin ray).z * (G.transformedRayDirection ray).z)
      ((G.transformedRayOrigin ray).x ^ 2 + (G.transformedRayOrigin ray).z ^ 2 - 1) with
  | none =>
    simp only [hs] at hp
    exact absurd hp (by simp)
  | some pr =>
    obtain ⟨t0, t1⟩ := pr
    simp only [hs] at hp
    obtain ⟨h0, h1⟩ := hr _ _ _ _ _ hs
    split_ifs at hp with hneg hy
    simp only [Option.some.injEq] at hp
    subst hp
    have hq := Cylinder.lateral_quadratic_eq (G.transformedRayOrigin ray) (G.transformedRayDirection ray)
      (selectRoot t0 t1)
    have hsel : ((G.transformedRayDirection ray).x ^ 2 + (G.transformedRayDirection ray).z ^ 2)
          * selectRoot t0 t1 ^ 2
        + (2 * (G.transformedRayOrigin ray).x * (G.transformedRayDirection ray).x
          + 2 * (G.transformedRayOrigin ray).z * (G.transformedRayDirection ray).z)
          * selectRoot t0 t1
        + ((G.transformedRayOrigin ray).x ^ 2 + (G.transformedRayOrigin ray).z ^ 2 - 1) = 0 := by
      unfold selectRoot
      split_ifs
      · exact h1
      · exact h0
    rw [not_or] at hy
    exact ⟨by linarith, not_lt.mp hy.1, not_lt.mp hy.2⟩

/-- A point of the lateral surface is not the zero vector. -/
theorem Cylinder.ne_zero_of_on_surface {p : vec3} (h : p.x ^ 2 + p.z ^ 2 = 1) :
    p ≠ ⟨0, 0, 0⟩ := by
  intro h0
  rw [h0] at h
  norm_num at h

/-- The object-space hit point of a cylinder whose object-space ray starts at
`(0,0,5)` with direction `(0,0,-1)` is `(0,0,1)`. -/
theorem Cylinder.cylinder_intersectionPoint_sample {Material : Type}
    {solve : ℝ → ℝ → ℝ → Option (ℝ × ℝ)} (hq : QuadraticContract solve)
    {G : Geometry Material} {ray : Ray} (he : G.transformedRayOrigin ray = ⟨0, 0, 5⟩)
    (hd : G.transformedRayDirection ray = ⟨0, 0, -1⟩) :
    Cylinder.intersectionPoint solve G ray = some ⟨0, 0, 1⟩ := by
  have hs : solve
      ((G.transformedRayDirection ray).x ^ 2 + (G.transformedRayDirection ray).z ^ 2)
      (2 * (G.transformedRayOrigin ray).x * (G.transformedRayDirection ray).x
        + 2 * (G.transformedRayOrigin ray).z * (G.transformedRayDirection ray).z)
      ((G.transformedRayOrigin ray).x ^ 2 + (G.transformedRayOrigin ray).z ^ 2 - 1)
      = some (4, 6) := by
    apply hq.eq_some
    · rw [hd]
      norm_num
    · norm_num
    · intro t
      rw [he, hd]
      ring
  unfold Cylinder.intersectionPoint
  simp only [hs]
  rw [he, hd]
  have h6 : ¬ (0 : ℝ) > 6 := by norm_num
  have h4 : ¬ (0 : ℝ) > 4 := by norm_num
  have hy : ¬ ((0 : ℝ) + 4 * 0 < -1 ∨ (0 : ℝ) + 4 * 0 > 1) := by norm_num
  simp only [h6, if_false, selectRoot, h4, vec3.add_y, vec3.mul_y, hy, Option.some.injEq]
  ext <;> norm_num

/-! ## Unit normals -/

/-- C3. Unit normal: for a solver that returns real roots and an invertible
transform, every record returned by `Sphere::intersect` or by the `intersect` of
Cylinder.cpp has a normal of Euclidean length exactly 1, and the vector handed
to the final `glm::normalize` is never the zero vector. -/
theorem intersect_normal_unit {Material : Type} (solve : ℝ → ℝ → ℝ → Option (ℝ × ℝ))
    (hr : ReturnsRoots solve) (G : Geometry Material) (hG : G.Invertible) (ray : Ray) :
    (∀ r, Sphere.intersect solve G ray = some r → glm.length r.normal = 1) ∧
      (∀ p, Sphere.intersectionPoint solve G ray = some p →
        G.normalToWorld (glm.normalize p) ≠ ⟨0, 0, 0⟩) ∧
      (∀ r, Cylinder.intersect solve G ray = some r → glm.length r.normal = 1) ∧
      (∀ p, Cylinder.intersectionPoint solve G ray = some p →
        G.normalToWorld (Cylinder.objectNormal p) ≠ ⟨0, 0, 0⟩) := by
  have hS : ∀ p, Sphere.intersectionPoint solve G ray = some p →
      G.normalToWorld (glm.normalize p) ≠ ⟨0, 0, 0⟩ := fun p hp =>
    hG.normalToWorld_ne_zero (glm.normalize_ne_zero
      (glm.ne_zero_of_dot_self_eq_one (Sphere.intersectionPoint_on_sphere hr hp)))
  have hC : ∀ p, Cylinder.intersectionPoint solve G ray = some p →
      G.normalToWorld (Cylinder.objectNormal p) ≠ ⟨0, 0, 0⟩ := fun p hp =>
    hG.normalToWorld_ne_zero (glm.normalize_ne_zero
      (Cylinder.ne_zero_of_on_surface (Cylinder.intersectionPoint_on_surface hr hp).1))
  refine ⟨fun r hrec => ?_, hS, fun r hrec => ?_, hC⟩
  · obtain ⟨p, hp, rfl⟩ := (Sphere.intersect_eq_some_iff solve G ray r).mp hrec
    exact glm.length_normalize (hS p hp)
  · obtain ⟨p, hp, rfl⟩ := (Cylinder.cylinder_intersect_eq_some_iff solve G ray r).mp hrec
    exact glm.length_normalize (hC p hp)

/-- Witness for C3: the solver model, a sphere and a cylinder stretched along X,
and a ray that hits both. -/
theorem intersect_normal_unit_witness :
    (∃ r, Sphere.intersect Tools.calculateQuadratic stretchedGeometry sphereRay = some r ∧
        glm.length r.normal = 1) ∧
      ∃ r, Cylinder.intersect Tools.calculateQuadratic stretchedGeometry sphereRay = some r ∧
        glm.length r.normal = 1 := by
  have h := intersect_normal_unit Tools.calculateQuadratic Tools.calculateQuadratic_returnsRoots
    stretchedGeometry stretchedGeometry_invertible sphereRay
  have hs := Sphere.intersectionPoint_sample Tools.calculateQuadratic_contract
    stretchedGeometry_origin stretchedGeometry_direction
  have hc := Cylinder.cylinder_intersectionPoint_sample Tools.calculateQuadratic_contract
    stretchedGeometry_origin stretchedGeometry_direction
  have hs2 : Sphere.intersect Tools.calculateQuadratic stretchedGeometry sphereRay
      = some (Sphere.record stretchedGeometry sphereRay ⟨0, 0, 1⟩) := by
    rw [Sphere.intersect, hs, Option.map_some']
  have hc2 : Cylinder.intersect Tools.calculateQuadratic stretchedGeometry sphereRay
      = some (Cylinder.record stretchedGeometry sphereRay ⟨0, 0, 1⟩) := by
    rw [Cylinder.intersect, hc, Option.map_some']
  exact ⟨⟨_, hs2, h.1 _ hs2⟩, ⟨_, hc2, h.2.2.1 _ hc2⟩⟩

/-- C4. Inverse-transpose normal transport: for an invertible transform and a
sphere hit with object-space hit point `p`, the returned normal is orthogonal to
the image `A t` of every object-space tangent vector `t` (every `t` with
`t . p = 0`) under the linear part `A` of the transform. -/
theorem Sphere.normal_perpendicular_to_tangent {Material : Type}
    (solve : ℝ → ℝ → ℝ → Option (ℝ × ℝ)) (G : Geometry Material) (hG : G.Invertible)
    (ray : Ray) (r : Intersection Material) (hrec : Sphere.intersect solve G ray = some r) :
    ∃ p, Sphere.intersectionPoint solve G ray = some p ∧
      ∀ t : vec3, glm.dot t p = 0 → glm.dot r.normal (G.linearPart t) = 0 := by
  obtain ⟨p, hp, rfl⟩ := (Sphere.intersect_eq_some_iff solve G ray r).mp hrec
  refine ⟨p, hp, fun t ht => ?_⟩
  show glm.dot (glm.normalize (G.normalToWorld (glm.normalize p))) (G.linearPart t) = 0
  rw [glm.normalize, glm.dot_mul_left, hG.dot_normalToWorld_linearPart, glm.normalize,
    glm.dot_mul_left]
  have hpt : glm.dot p t = 0 := by
    rw [← ht]
    simp only [glm.dot]
    ring
  rw [hpt, mul_zero, mul_zero]

/-- Witness for C4: a sphere stretched by two along X (non-uniform scale), hit
at the object-space point `(0,0,1)`. -/
theorem Sphere.normal_perpendicular_to_tangent_witness :
    ∃ p, Sphere.intersectionPoint Tools.calculateQuadratic stretchedGeometry sphereRay = some p ∧
      ∀ t : vec3, glm.dot t p = 0 →
        glm.dot (Sphere.record stretchedGeometry sphereRay ⟨0, 0, 1⟩).normal
          (stretchedGeometry.linearPart t) = 0 :=
  Sphere.normal_perpendicular_to_tangent Tools.calculateQuadratic stretchedGeometry
    stretchedGeometry_invertible sphereRay (Sphere.record stretchedGeometry sphereRay ⟨0, 0, 1⟩)
    (by rw [Sphere.intersect, Sphere.intersectionPoint_sample Tools.calculateQuadratic_contract
      stretchedGeometry_origin stretchedGeometry_direction, Option.map_some'])


/-! ## Cylinder: rays parallel to the axis -/

/-- C6. Cap-less cylinder: with a solver that follows one of the two policies of
the specification on a degenerate quadratic, under the identity transform every
ray whose direction is parallel to the Y axis (`x_d = z_d = 0`) gets no
intersection from the `intersect` of Cylinder.cpp. -/
theorem Cylinder.intersect_axis_parallel {Material : Type}
    (solve : ℝ → ℝ → ℝ → Option (ℝ × ℝ)) (hpol : DegeneratePolicy solve)
    (G : Geometry Material) (hG : G.IsIdentity) (ray : Ray)
    (hx : ray.direction.x = 0) (hz : ray.direction.z = 0) :
    Cylinder.intersect solve G ray = none := by
  have hnone : Cylinder.intersectionPoint solve G ray = none := by
    unfold Cylinder.intersectionPoint
    simp only [hG.transformedRayOrigin, hG.transformedRayDirection, hx, hz]
    have ha : (0 : ℝ) ^ 2 + 0 ^ 2 = 0 := by norm_num
    have hb : 2 * ray.origin.x * 0 + 2 * ray.origin.z * 0 = (0 : ℝ) := by ring
    rw [ha, hb]
    rcases hpol 0 (ray.origin.x ^ 2 + ray.origin.z ^ 2 - 1) with h | ⟨h, -⟩
    · rw [h]
    · exact absurd rfl h
  rw [Cylinder.intersect, hnone, Option.map_none']

/-- Witness for C6: the solver model and the ray along the axis through the open
caps, origin `(0,5,0)`, direction `(0,-1,0)`. -/
theorem Cylinder.intersect_axis_parallel_witness :
    Cylinder.intersect Tools.calculateQuadratic unitGeometry axisRay = none :=
  Cylinder.intersect_axis_parallel Tools.calculateQuadratic Tools.calculateQuadratic_degenerate
    unitGeometry unitGeometry_isIdentity axisRay rfl rfl

/-! ## Cylinder: the normal -/

/-- The square root of `25/16`. -/
theorem sqrt_25_16 : Real.sqrt (25 / 16) = 5 / 4 := by
  rw [show (25 / 16 : ℝ) = (5 / 4) ^ 2 by norm_num]
  exact Real.sqrt_sq (by norm_num)

/-- The normalisation of a unit vector is the vector itself. -/
theorem glm.normalize_normalize {v : vec3} (h : v ≠ ⟨0, 0, 0⟩) :
    glm.normalize (glm.normalize v) = glm.normalize v := by
  apply glm.normalize_of_dot_self_eq_one
  have hl := glm.length_normalize h
  rw [glm.length] at hl
  have h2 := Real.sq_sqrt (glm.dot_self_nonneg (glm.normalize v))
  rw [hl] at h2
  linarith

/-- The record of a cylinder hit under the identity transform. -/
theorem Cylinder.cylinder_record_identity {Material : Type} {G : Geometry Material} (hG : G.IsIdentity)
    (ray : Ray) {p : vec3} (hp : p ≠ ⟨0, 0, 0⟩) :
    Cylinder.record G ray p
      = ⟨ray, p, glm.normalize p, Cylinder.uvCoordinates p, G._material⟩ := by
  simp only [Cylinder.record, Cylinder.objectNormal, hG.normalToWorld, hG.returnedPoint,
    glm.normalize_normalize hp]

/-- The object-space hit point of the horizontal ray from `(2, h, 0)` towards
`-X`, for a height `h` in `[-1, 1]`, is `(1, h, 0)`. -/
theorem Cylinder.intersectionPoint_horizontal {Material : Type}
    {solve : ℝ → ℝ → ℝ → Option (ℝ × ℝ)} (hq : QuadraticContract solve)
    {G : Geometry Material} (hG : G.IsIdentity) (h : ℝ) (hlo : -1 ≤ h) (hhi : h ≤ 1) :
    Cylinder.intersectionPoint solve G ⟨⟨2, h, 0⟩, ⟨-1, 0, 0⟩⟩ = some ⟨1, h, 0⟩ := by
  have hs : solve ((-1 : ℝ) ^ 2 + (0 : ℝ) ^ 2) (2 * 2 * (-1 : ℝ) + 2 * 0 * 0)
      ((2 : ℝ) ^ 2 + (0 : ℝ) ^ 2 - 1) = some (1, 3) := by
    apply hq.eq_some
    · norm_num
    · norm_num
    · intro t
      ring
  unfold Cylinder.intersectionPoint
  simp only [hG.transformedRayOrigin, hG.transformedRayDirection, hs]
  have h3 : ¬ (0 : ℝ) > 3 := by norm_num
  have h1 : ¬ (0 : ℝ) > 1 := by norm_num
  have hy : ¬ (h + 1 * 0 < -1 ∨ h + 1 * 0 > 1) := by
    rw [not_or]
    constructor <;> linarith
  simp only [h3, if_false, selectRoot, h1, vec3.add_y, vec3.mul_y, hy, Option.some.injEq]
  ext <;> norm_num

/-- C7. Cylinder normal, evaluated under the identity transform. For every hit
the returned normal is the normalised hit point, so its Y component is zero only
for hits at height `y = 0`; the ray from `(2, 3/4, 0)` towards `-X` hits at
`(1, 3/4, 0)` and gets the normal `(4/5, 3/5, 0)` where the radial normal is
`(1, 0, 0)`. -/
theorem Cylinder.normal_not_radial {Material : Type} (solve : ℝ → ℝ → ℝ → Option (ℝ × ℝ))
    (hq : QuadraticContract solve) (hr : ReturnsRoots solve) (G : Geometry Material)
    (hG : G.IsIdentity) :
    (∀ ray p r, Cylinder.intersectionPoint solve G ray = some p →
        Cylinder.intersect solve G ray = some r →
        Cylinder.objectNormal p = glm.normalize p ∧ r.normal = glm.normalize p ∧
          (r.normal.y = 0 ↔ p.y = 0)) ∧
      ∃ r, Cylinder.intersect solve G raisedRay = some r ∧
        Cylinder.intersectionPoint solve G raisedRay = some ⟨1, 3 / 4, 0⟩ ∧
        Cylinder.objectNormal ⟨1, 3 / 4, 0⟩ = ⟨4 / 5, 3 / 5, 0⟩ ∧
        r.normal = ⟨4 / 5, 3 / 5, 0⟩ := by
  constructor
  · intro ray p r hp hrec
    obtain ⟨q, hq2, rfl⟩ := (Cylinder.cylinder_intersect_eq_some_iff solve G ray r).mp hrec
    rw [hp] at hq2
    simp only [Option.some.injEq] at hq2
    subst hq2
    have hsurf := Cylinder.intersectionPoint_on_surface hr hp
    have hne := Cylinder.ne_zero_of_on_surface hsurf.1
    rw [Cylinder.cylinder_record_identity hG ray hne]
    refine ⟨rfl, rfl, ?_⟩
    have hpos : 0 < Real.sqrt (glm.dot p p) := Real.sqrt_pos.mpr (glm.dot_self_pos hne)
    simp only [glm.normalize, vec3.mul_y]
    constructor
    · intro h0
      rcases mul_eq_zero.mp h0 with h | h
      · exact absurd h (one_div_pos.mpr hpos).ne.symm
      · exact h
    · intro h0
      rw [h0, mul_zero]
  · have hp : Cylinder.intersectionPoint solve G raisedRay = some ⟨1, 3 / 4, 0⟩ :=
      Cylinder.intersectionPoint_horizontal hq hG (3 / 4) (by norm_num) (by norm_num)
    have hn : glm.normalize ⟨1, 3 / 4, 0⟩ = ⟨4 / 5, 3 / 5, 0⟩ := by
      have hd : glm.dot (⟨1, 3 / 4, 0⟩ : vec3) ⟨1, 3 / 4, 0⟩ = 25 / 16 := by
        norm_num [glm.dot]
      rw [glm.normalize, hd, sqrt_25_16]
      ext <;> norm_num
    have hne : (⟨1, 3 / 4, 0⟩ : vec3) ≠ ⟨0, 0, 0⟩ := by
      intro h
      have hx := congrArg vec3.x h
      norm_num at hx
    refine ⟨Cylinder.record G raisedRay ⟨1, 3 / 4, 0⟩, ?_, hp, hn, ?_⟩
    · rw [Cylinder.intersect, hp, Option.map_some']
    · rw [Cylinder.cylinder_record_identity hG raisedRay hne]
      exact hn

/-- Witness for C7: the solver model and the unit geometry. -/
theorem Cylinder.normal_not_radial_witness :
    ∃ r, Cylinder.intersect Tools.calculateQuadratic unitGeometry raisedRay = some r ∧
      Cylinder.intersectionPoint Tools.calculateQuadratic unitGeometry raisedRay
        = some ⟨1, 3 / 4, 0⟩ ∧
      Cylinder.objectNormal ⟨1, 3 / 4, 0⟩ = ⟨4 / 5, 3 / 5, 0⟩ ∧
      r.normal = ⟨4 / 5, 3 / 5, 0⟩ :=
  (Cylinder.normal_not_radial Tools.calculateQuadratic Tools.calculateQuadratic_contract
    Tools.calculateQuadratic_returnsRoots unitGeometry unitGeometry_isIdentity).2


/-! ## Cone: the extremity branch -/

/-- C9. Cone extremity miss, evaluated: when the side quadratic has no real
roots and the plane-intersection helper returns none, `Cone::intersect` does not
return `nullptr`; it goes on to build a record from the default-constructed
point and normal. -/
theorem Cone.intersect_extremity_miss {Material : Type}
    (solve : ℝ → ℝ → ℝ → Option (ℝ × ℝ))
    (plane : Ray → vec3 → vec3 → vec3 → Option vec3) (G : Geometry Material) (ray : Ray)
    (hs : solve
      ((G.transformedRayDirection ray).x ^ 2 + (G.transformedRayDirection ray).z ^ 2
        - (G.transformedRayDirection ray).y ^ 2)
      (2 * (G.transformedRayOrigin ray).x * (G.transformedRayDirection ray).x
        + 2 * (G.transformedRayOrigin ray).z * (G.transformedRayDirection ray).z
        - 2 * (G.transformedRayOrigin ray).y * (G.transformedRayDirection ray).y)
      ((G.transformedRayOrigin ray).x ^ 2 + (G.transformedRayOrigin ray).z ^ 2
        - (G.transformedRayOrigin ray).y ^ 2) = none)
    (hpl : plane ray ⟨0, -1, 0⟩ ⟨1, -1, 0⟩ ⟨0, -1, 1⟩ = none) :
    Cone.intersect solve plane G ray
      = some (Cone.record G ray ⟨true, vec3Default, vec3Default⟩) := by
  have hh : Cone.hit solve plane G ray = some ⟨true, vec3Default, vec3Default⟩ := by
    unfold Cone.hit
    simp only [hs, hpl]
  rw [Cone.intersect, hh, Option.map_some']

/-- Witness for C9: the solver model, the helper model, the unit geometry and a
horizontal ray passing beside the cone, origin `(0,-0.5,2)`, direction `(1,0,0)`:
no real roots, ray parallel to the plane `y = -1`, and yet a record. -/
theorem Cone.intersect_extremity_miss_witness :
    Cone._findIntersectionWithPlane besideRay ⟨0, -1, 0⟩ ⟨1, -1, 0⟩ ⟨0, -1, 1⟩ = none ∧
      Cone.intersect Tools.calculateQuadratic Cone._findIntersectionWithPlane unitGeometry
          besideRay
        = some (Cone.record unitGeometry besideRay ⟨true, vec3Default, vec3Default⟩) := by
  have hpl : Cone._findIntersectionWithPlane besideRay ⟨0, -1, 0⟩ ⟨1, -1, 0⟩ ⟨0, -1, 1⟩
      = none := by
    have hden : glm.dot (glm.cross ((⟨1, -1, 0⟩ : vec3) - ⟨0, -1, 0⟩)
        ((⟨0, -1, 1⟩ : vec3) - ⟨0, -1, 0⟩)) besideRay.direction = 0 := by
      show (((-1 : ℝ) - -1) * (1 - 0) - (-1 - -1) * (0 - 0)) * 1
        + ((0 - 0) * (0 - 0) - (1 - 0) * (1 - 0)) * 0
        + ((1 - 0) * (-1 - -1) - (0 - 0) * (-1 - -1)) * 0 = (0 : ℝ)
      norm_num
    simp only [Cone._findIntersectionWithPlane, hden, if_true]
  refine ⟨hpl, Cone.intersect_extremity_miss Tools.calculateQuadratic
    Cone._findIntersectionWithPlane unitGeometry besideRay ?_ hpl⟩
  rw [unitGeometry_isIdentity.transformedRayOrigin, unitGeometry_isIdentity.transformedRayDirection]
  apply (Tools.calculateQuadratic_contract _ _ _ ?_).1
  · simp only [besideRay]
    norm_num
  · simp only [besideRay]
    norm_num

/-! ## Cone: roots behind the origin -/

/-- Lines 46-52 of `Cone::intersect`: roots with `t1 < 0` end the function with
`nullptr`, whatever the plane helper would return. -/
theorem Cone.intersect_of_roots_behind {Material : Type}
    {solve : ℝ → ℝ → ℝ → Option (ℝ × ℝ)}
    (plane : Ray → vec3 → vec3 → vec3 → Option vec3) {G : Geometry Material} {ray : Ray}
    {t0 t1 : ℝ}
    (hs : solve
      ((G.transformedRayDirection ray).x ^ 2 + (G.transformedRayDirection ray).z ^ 2
        - (G.transformedRayDirection ray).y ^ 2)
      (2 * (G.transformedRayOrigin ray).x * (G.transformedRayDirection ray).x
        + 2 * (G.transformedRayOrigin ray).z * (G.transformedRayDirection ray).z
        - 2 * (G.transformedRayOrigin ray).y * (G.transformedRayDirection ray).y)
      ((G.transformedRayOrigin ray).x ^ 2 + (G.transformedRayOrigin ray).z ^ 2
        - (G.transformedRayOrigin ray).y ^ 2) = some (t0, t1))
    (h1 : t1 < 0) : Cone.intersect solve plane G ray = none := by
  have hh : Cone.hit solve plane G ray = none := by
    unfold Cone.hit
    have h1g : (0 : ℝ) > t1 := h1
    simp only [hs, h1g, if_true]
  rw [Cone.intersect, hh, Option.map_none']

/-- Under the identity transform the side quadratic of the ray from
`(0,-0.5,0)` towards `-Y` is `-t² - t - 1/4`, with the double root `-1/2`. -/
theorem Cone.roots_insideRay {Material : Type} {solve : ℝ → ℝ → ℝ → Option (ℝ × ℝ)}
    (hq : QuadraticContract solve) {G : Geometry Material} (hG : G.IsIdentity) :
    solve
      ((G.transformedRayDirection insideRay).x ^ 2 + (G.transformedRayDirection insideRay).z ^ 2
        - (G.transformedRayDirection insideRay).y ^ 2)
      (2 * (G.transformedRayOrigin insideRay).x * (G.transformedRayDirection insideRay).x
        + 2 * (G.transformedRayOrigin insideRay).z * (G.transformedRayDirection insideRay).z
        - 2 * (G.transformedRayOrigin insideRay).y * (G.transformedRayDirection insideRay).y)
      ((G.transformedRayOrigin insideRay).x ^ 2 + (G.transformedRayOrigin insideRay).z ^ 2
        - (G.transformedRayOrigin insideRay).y ^ 2) = some (-(1 / 2), -(1 / 2)) := by
  rw [hG.transformedRayOrigin, hG.transformedRayDirection]
  apply hq.eq_some
  · simp only [insideRay]
    norm_num
  · exact le_refl _
  · intro t
    simp only [insideRay]
    ring

/-- The plane `y = -1` is met by the ray from `(0,-0.5,0)` towards `-Y` at
`(0,-1,0)`, the centre of the base disc. -/
theorem Cone.plane_insideRay :
    Cone._findIntersectionWithPlane insideRay ⟨0, -1, 0⟩ ⟨1, -1, 0⟩ ⟨0, -1, 1⟩
      = some ⟨0, -1, 0⟩ := by
  have hden : glm.dot (glm.cross ((⟨1, -1, 0⟩ : vec3) - ⟨0, -1, 0⟩)
      ((⟨0, -1, 1⟩ : vec3) - ⟨0, -1, 0⟩)) insideRay.direction = 1 := by
    show (((-1 : ℝ) - -1) * (1 - 0) - (-1 - -1) * (0 - 0)) * 0
      + ((0 - 0) * (0 - 0) - (1 - 0) * (1 - 0)) * (-1)
      + ((1 - 0) * (-1 - -1) - (0 - 0) * (-1 - -1)) * 0 = (1 : ℝ)
    norm_num
  have hnum : glm.dot (glm.cross ((⟨1, -1, 0⟩ : vec3) - ⟨0, -1, 0⟩)
      ((⟨0, -1, 1⟩ : vec3) - ⟨0, -1, 0⟩)) ((⟨0, -1, 0⟩ : vec3) - insideRay.origin)
      = 1 / 2 := by
    show (((-1 : ℝ) - -1) * (1 - 0) - (-1 - -1) * (0 - 0)) * (0 - 0)
      + ((0 - 0) * (0 - 0) - (1 - 0) * (1 - 0)) * (-1 - -0.5)
      + ((1 - 0) * (-1 - -1) - (0 - 0) * (-1 - -1)) * (0 - 0) = (1 / 2 : ℝ)
    norm_num
  have h10 : ¬ (1 : ℝ) = 0 := one_ne_zero
  simp only [Cone._findIntersectionWithPlane, hden, hnum, h10, if_false, Option.some.injEq]
  ext <;> norm_num [insideRay]

/-- C10, as amended. Cone behind-origin roots: for every ray for which the side
quadratic has real roots with `t1 < 0`, `Cone::intersect` returns no
intersection at once (lines 46-52) and never consults the plane-intersection
helper; the extremity test is attempted only when the solver reports no real
roots. Under the identity transform the ray from `(0,-0.5,0)` towards `-Y` has
the double root `t = -0.5`, so it gets no intersection, although the plane
`y = -1` is met at `(0,-1,0)`, inside the base disc. -/
theorem Cone.intersect_behind_origin {Material : Type}
    (solve : ℝ → ℝ → ℝ → Option (ℝ × ℝ)) (hq : QuadraticContract solve)
    (plane : Ray → vec3 → vec3 → vec3 → Option vec3) (G : Geometry Material) :
    (∀ ray t0 t1,
        solve
          ((G.transformedRayDirection ray).x ^ 2 + (G.transformedRayDirection ray).z ^ 2
            - (G.transformedRayDirection ray).y ^ 2)
          (2 * (G.transformedRayOrigin ray).x * (G.transformedRayDirection ray).x
            + 2 * (G.transformedRayOrigin ray).z * (G.transformedRayDirection ray).z
            - 2 * (G.transformedRayOrigin ray).y * (G.transformedRayDirection ray).y)
          ((G.transformedRayOrigin ray).x ^ 2 + (G.transformedRayOrigin ray).z ^ 2
            - (G.transformedRayOrigin ray).y ^ 2) = some (t0, t1) →
        t1 < 0 → Cone.intersect solve plane G ray = none) ∧
      (G.IsIdentity → Cone.intersect solve plane G insideRay = none) ∧
      Cone._findIntersectionWithPlane insideRay ⟨0, -1, 0⟩ ⟨1, -1, 0⟩ ⟨0, -1, 1⟩
        = some ⟨0, -1, 0⟩ ∧
      Real.sqrt ((0 : ℝ) ^ 2 + (0 : ℝ) ^ 2) < 1.0001 := by
  refine ⟨fun ray t0 t1 hs h1 => Cone.intersect_of_roots_behind plane hs h1,
    fun hG => Cone.intersect_of_roots_behind plane (Cone.roots_insideRay hq hG) (by norm_num),
    Cone.plane_insideRay, ?_⟩
  have h0 : (0 : ℝ) ^ 2 + (0 : ℝ) ^ 2 = 0 := by norm_num
  rw [h0, Real.sqrt_zero]
  norm_num

/-- Witness for C10: the solver model, the helper model and the unit geometry. -/
theorem Cone.intersect_behind_origin_witness :
    Cone.intersect Tools.calculateQuadratic Cone._findIntersectionWithPlane unitGeometry
        insideRay = none ∧
      Cone._findIntersectionWithPlane insideRay ⟨0, -1, 0⟩ ⟨1, -1, 0⟩ ⟨0, -1, 1⟩
        = some ⟨0, -1, 0⟩ :=
  ⟨(Cone.intersect_behind_origin Tools.calculateQuadratic Tools.calculateQuadratic_contract
      Cone._findIntersectionWithPlane unitGeometry).2.1 unitGeometry_isIdentity,
    (Cone.intersect_behind_origin Tools.calculateQuadratic Tools.calculateQuadratic_contract
      Cone._findIntersectionWithPlane unitGeometry).2.2.1⟩

/-- C10, counterexample. Under the identity transform the side quadratic of the
ray from `(0,-0.5,0)` towards `-Y` has real roots with `t1 = -1/2 < 0`, and the
plane `y = -1` is met inside the base disc, at distance `0` from the axis; the
claim promises the cap hit with normal `(0,-1,0)`, and `Cone::intersect`
returns no intersection. -/
theorem Cone.intersect_behind_origin_counterexample :
    (∃ t0 t1 : ℝ,
      Tools.calculateQuadratic
        ((unitGeometry.transformedRayDirection insideRay).x ^ 2
          + (unitGeometry.transformedRayDirection insideRay).z ^ 2
          - (unitGeometry.transformedRayDirection insideRay).y ^ 2)
        (2 * (unitGeometry.transformedRayOrigin insideRay).x
            * (unitGeometry.transformedRayDirection insideRay).x
          + 2 * (unitGeometry.transformedRayOrigin insideRay).z
            * (unitGeometry.transformedRayDirection insideRay).z
          - 2 * (unitGeometry.transformedRayOrigin insideRay).y
            * (unitGeometry.transformedRayDirection insideRay).y)
        ((unitGeometry.transformedRayOrigin insideRay).x ^ 2
          + (unitGeometry.transformedRayOrigin insideRay).z ^ 2
          - (unitGeometry.transformedRayOrigin insideRay).y ^ 2) = some (t0, t1) ∧
      t1 < 0) ∧
    (∃ q : vec3,
      Cone._findIntersectionWithPlane insideRay ⟨0, -1, 0⟩ ⟨1, -1, 0⟩ ⟨0, -1, 1⟩ = some q ∧
      ¬ Real.sqrt (q.x ^ 2 + q.z ^ 2) ≥ 1.0001) ∧
    Cone.intersect Tools.calculateQuadratic Cone._findIntersectionWithPlane unitGeometry
      insideRay = none := by
  have hs := @Cone.roots_insideRay Unit Tools.calculateQuadratic Tools.calculateQuadratic_contract
    unitGeometry unitGeometry_isIdentity
  refine ⟨⟨_, _, hs, by norm_num⟩, ⟨_, Cone.plane_insideRay, ?_⟩,
    Cone.intersect_of_roots_behind _ hs (by norm_num)⟩
  show ¬ Real.sqrt ((0 : ℝ) ^ 2 + (0 : ℝ) ^ 2) ≥ 1.0001
  have h0 : (0 : ℝ) ^ 2 + (0 : ℝ) ^ 2 = 0 := by norm_num
  rw [h0, Real.sqrt_zero]
  norm_num

/-! ## Every geometry built with a non-degenerate scale is invertible -/

theorem glm.rotate_x (angle : ℝ) :
    glm.rotate 1 angle ⟨1, 0, 0⟩
      = !![1, 0, 0, 0; 0, Real.cos angle, -Real.sin angle, 0;
           0, Real.sin angle, Real.cos angle, 0; 0, 0, 0, 1] := by
  ext i j
  fin_cases i <;> fin_cases j <;>
    simp [glm.rotate, glm.normalize, glm.dot, Matrix.vecHead, Matrix.vecTail]

theorem glm.rotate_y (angle : ℝ) :
    glm.rotate 1 angle ⟨0, 1, 0⟩
      = !![Real.cos angle, 0, Real.sin angle, 0; 0, 1, 0, 0;
           -Real.sin angle, 0, Real.cos angle, 0; 0, 0, 0, 1] := by
  ext i j
  fin_cases i <;> fin_cases j <;>
    simp [glm.rotate, glm.normalize, glm.dot, Matrix.vecHead, Matrix.vecTail]

theorem glm.rotate_z (angle : ℝ) :
    glm.rotate 1 angle ⟨0, 0, 1⟩
      = !![Real.cos angle, -Real.sin angle, 0, 0; Real.sin angle, Real.cos angle, 0, 0;
           0, 0, 1, 0; 0, 0, 0, 1] := by
  ext i j
  fin_cases i <;> fin_cases j <;>
    simp [glm.rotate, glm.normalize, glm.dot, Matrix.vecHead, Matrix.vecTail]

/-- The product of two matrices with bottom row `0 0 0 1` has that bottom row. -/
theorem affine_mul {A B : mat4} (hA : ∀ j : Fin 4, A 3 j = if j = 3 then 1 else 0)
    (hB : ∀ j : Fin 4, B 3 j = if j = 3 then 1 else 0) :
    ∀ j : Fin 4, (A * B) 3 j = if j = 3 then 1 else 0 := by
  intro j
  rw [Matrix.mul_apply, Fin.sum_univ_four, hA 0, hA 1, hA 2, hA 3]
  simp [hB j]

/-- The determinant of the transform built by the constructor is a unit when no
scale component is zero, and the transform is affine. -/
theorem Geometry.new_transform_isUnit_det {Material : Type} (p o s : vec3) (mtl : Material)
    (hx : s.x ≠ 0) (hy : s.y ≠ 0) (hz : s.z ≠ 0) :
    IsUnit (Geometry.new p o s mtl)._transformationMatrix.det ∧
      ∀ j : Fin 4, (Geometry.new p o s mtl)._transformationMatrix 3 j
        = if j = 3 then 1 else 0 := by
  have hT : glm.translate 1 p * glm.translate 1 ⟨-p.x, -p.y, -p.z⟩ = 1 := by
    ext i j
    fin_cases i <;> fin_cases j <;>
      simp [glm.translate, Matrix.mul_apply, Fin.sum_univ_four, Matrix.vecHead, Matrix.vecTail]
  have hS : glm.scale 1 s * glm.scale 1 ⟨1 / s.x, 1 / s.y, 1 / s.z⟩ = 1 := by
    ext i j
    fin_cases i <;> fin_cases j <;>
      simp [glm.scale, Matrix.mul_apply, Fin.sum_univ_four, Matrix.vecHead, Matrix.vecTail, hx,
        hy, hz]
  have hX : glm.rotate 1 o.x ⟨1, 0, 0⟩ * Matrix.transpose (glm.rotate 1 o.x ⟨1, 0, 0⟩) = 1 := by
    rw [glm.rotate_x]
    ext i j
    fin_cases i <;> fin_cases j <;>
      simp [Matrix.mul_apply, Fin.sum_univ_four, Matrix.vecHead, Matrix.vecTail] <;>
      nlinarith [Real.sin_sq_add_cos_sq o.x]
  have hY : glm.rotate 1 o.y ⟨0, 1, 0⟩ * Matrix.transpose (glm.rotate 1 o.y ⟨0, 1, 0⟩) = 1 := by
    rw [glm.rotate_y]
    ext i j
    fin_cases i <;> fin_cases j <;>
      simp [Matrix.mul_apply, Fin.sum_univ_four, Matrix.vecHead, Matrix.vecTail] <;>
      nlinarith [Real.sin_sq_add_cos_sq o.y]
  have hZ : glm.rotate 1 o.z ⟨0, 0, 1⟩ * Matrix.transpose (glm.rotate 1 o.z ⟨0, 0, 1⟩) = 1 := by
    rw [glm.rotate_z]
    ext i j
    fin_cases i <;> fin_cases j <;>
      simp [Matrix.mul_apply, Fin.sum_univ_four, Matrix.vecHead, Matrix.vecTail] <;>
      nlinarith [Real.sin_sq_add_cos_sq o.z]
  have aT : ∀ j : Fin 4, glm.translate 1 p 3 j = if j = 3 then 1 else 0 := by
    intro j
    fin_cases j <;>
      simp [glm.translate, Matrix.mul_apply, Fin.sum_univ_four, Matrix.vecHead, Matrix.vecTail]
  have aS : ∀ j : Fin 4, glm.scale 1 s 3 j = if j = 3 then 1 else 0 := by
    intro j
    fin_cases j <;>
      simp [glm.scale, Matrix.mul_apply, Fin.sum_univ_four, Matrix.vecHead, Matrix.vecTail]
  have aX : ∀ j : Fin 4, glm.rotate 1 o.x ⟨1, 0, 0⟩ 3 j = if j = 3 then 1 else 0 := by
    intro j
    rw [glm.rotate_x]
    fin_cases j <;> simp [Matrix.vecHead, Matrix.vecTail]
  have aY : ∀ j : Fin 4, glm.rotate 1 o.y ⟨0, 1, 0⟩ 3 j = if j = 3 then 1 else 0 := by
    intro j
    rw [glm.rotate_y]
    fin_cases j <;> simp [Matrix.vecHead, Matrix.vecTail]
  have aZ : ∀ j : Fin 4, glm.rotate 1 o.z ⟨0, 0, 1⟩ 3 j = if j = 3 then 1 else 0 := by
    intro j
    rw [glm.rotate_z]
    fin_cases j <;> simp [Matrix.vecHead, Matrix.vecTail]
  constructor
  · show IsUnit (glm.translate 1 p * glm.rotate 1 o.x ⟨1, 0, 0⟩ * glm.rotate 1 o.y ⟨0, 1, 0⟩
      * glm.rotate 1 o.z ⟨0, 0, 1⟩ * glm.scale 1 s).det
    rw [Matrix.det_mul, Matrix.det_mul, Matrix.det_mul, Matrix.det_mul]
    exact ((((Matrix.isUnit_det_of_right_inverse hT).mul
      (Matrix.isUnit_det_of_right_inverse hX)).mul
      (Matrix.isUnit_det_of_right_inverse hY)).mul
      (Matrix.isUnit_det_of_right_inverse hZ)).mul
      (Matrix.isUnit_det_of_right_inverse hS)
  · exact affine_mul (affine_mul (affine_mul (affine_mul aT aX) aY) aZ) aS

/-- Every geometry the constructor builds from a scale without a zero component
has an invertible affine transform pair. -/
theorem Geometry.new_invertible {Material : Type} (p o s : vec3) (mtl : Material)
    (hx : s.x ≠ 0) (hy : s.y ≠ 0) (hz : s.z ≠ 0) : (Geometry.new p o s mtl).Invertible := by
  obtain ⟨hu, ha⟩ := Geometry.new_transform_isUnit_det p o s mtl hx hy hz
  exact ⟨Matrix.mul_nonsing_inv _ hu, Matrix.nonsing_inv_mul _ hu, ha⟩

theorem glm.normalize_down : glm.normalize ⟨0, -1, 0⟩ = ⟨0, -1, 0⟩ :=
  glm.normalize_of_dot_self_eq_one (by norm_num [glm.dot])

/-- C11. Cone base boundary: on the extremity branch (the solver reports no real
roots), for every plane hit `p` returned by the helper, `Cone::intersect` returns
no record when `sqrt(x² + z²) ≥ 1.0001` and accepts the hit with object-space
normal `(0,-1,0)` when it is less than `1.0001`; radial distance exactly `1.0001`
is rejected and `0.9999` is accepted. -/
theorem Cone.intersect_base_boundary {Material : Type}
    (solve : ℝ → ℝ → ℝ → Option (ℝ × ℝ))
    (plane : Ray → vec3 → vec3 → vec3 → Option vec3) (G : Geometry Material) (ray : Ray)
    (p : vec3)
    (hs : solve
      ((G.transformedRayDirection ray).x ^ 2 + (G.transformedRayDirection ray).z ^ 2
        - (G.transformedRayDirection ray).y ^ 2)
      (2 * (G.transformedRayOrigin ray).x * (G.transformedRayDirection ray).x
        + 2 * (G.transformedRayOrigin ray).z * (G.transformedRayDirection ray).z
        - 2 * (G.transformedRayOrigin ray).y * (G.transformedRayDirection ray).y)
      ((G.transformedRayOrigin ray).x ^ 2 + (G.transformedRayOrigin ray).z ^ 2
        - (G.transformedRayOrigin ray).y ^ 2) = none)
    (hpl : plane ray ⟨0, -1, 0⟩ ⟨1, -1, 0⟩ ⟨0, -1, 1⟩ = some p) :
    (Real.sqrt (p.x ^ 2 + p.z ^ 2) ≥ 1.0001 → Cone.intersect solve plane G ray = none) ∧
      (Real.sqrt (p.x ^ 2 + p.z ^ 2) < 1.0001 →
        Cone.hit solve plane G ray = some ⟨true, p, ⟨0, -1, 0⟩⟩ ∧
        Cone.intersect solve plane G ray = some (Cone.record G ray ⟨true, p, ⟨0, -1, 0⟩⟩)) ∧
      (Real.sqrt (p.x ^ 2 + p.z ^ 2) = 1.0001 → Cone.intersect solve plane G ray = none) ∧
      (Real.sqrt (p.x ^ 2 + p.z ^ 2) = 0.9999 →
        Cone.intersect solve plane G ray = some (Cone.record G ray ⟨true, p, ⟨0, -1, 0⟩⟩)) := by
  have hrej : Real.sqrt (p.x ^ 2 + p.z ^ 2) ≥ 1.0001 →
      Cone.intersect solve plane G ray = none := by
    intro h
    have hh : Cone.hit solve plane G ray = none := by
      unfold Cone.hit
      simp only [hs, hpl, h, if_true]
    rw [Cone.intersect, hh, Option.map_none']
  have hacc : Real.sqrt (p.x ^ 2 + p.z ^ 2) < 1.0001 →
      Cone.hit solve plane G ray = some ⟨true, p, ⟨0, -1, 0⟩⟩ ∧
      Cone.intersect solve plane G ray
        = some (Cone.record G ray ⟨true, p, ⟨0, -1, 0⟩⟩) := by
    intro h
    have hh : Cone.hit solve plane G ray = some ⟨true, p, ⟨0, -1, 0⟩⟩ := by
      unfold Cone.hit
      simp only [hs, hpl, not_le.mpr h, ge_iff_le, if_false, glm.normalize_down]
    exact ⟨hh, by rw [Cone.intersect, hh, Option.map_some']⟩
  refine ⟨hrej, hacc, fun h => hrej (le_of_eq h.symm), fun h => (hacc ?_).2⟩
  rw [h]
  norm_num

theorem farGeometry_ray (o : vec3) :
    farGeometry.transformedRayOrigin ⟨o, ⟨1, -0.1, 0⟩⟩ = ⟨o.x, o.y, o.z + 10⟩ ∧
      farGeometry.transformedRayDirection ⟨o, ⟨1, -0.1, 0⟩⟩ = ⟨1, -0.1, 0⟩ := by
  obtain ⟨h1, h2⟩ := Geometry.new_unrotated_ray ⟨0, 0, -10⟩ ⟨1, 1, 1⟩ ()
    (by norm_num) (by norm_num) (by norm_num) ⟨o, ⟨1, -0.1, 0⟩⟩
  constructor
  · rw [farGeometry, h1]
    ext <;> norm_num
  · rw [farGeometry, h2]
    ext <;> norm_num

/-- The helper model on a ray of direction `(1,-0.1,0)` starting at height 0. -/
theorem Cone.plane_model_sample (x : ℝ) :
    Cone._findIntersectionWithPlane ⟨⟨x, 0, 0⟩, ⟨1, -0.1, 0⟩⟩ ⟨0, -1, 0⟩ ⟨1, -1, 0⟩ ⟨0, -1, 1⟩
      = some ⟨x + 10, -1, 0⟩ := by
  have hden : glm.dot (glm.cross ((⟨1, -1, 0⟩ : vec3) - ⟨0, -1, 0⟩)
      ((⟨0, -1, 1⟩ : vec3) - ⟨0, -1, 0⟩)) (⟨1, -0.1, 0⟩ : vec3) = 0.1 := by
    show (((-1 : ℝ) - -1) * (1 - 0) - (-1 - -1) * (0 - 0)) * 1
      + ((0 - 0) * (0 - 0) - (1 - 0) * (1 - 0)) * (-0.1)
      + ((1 - 0) * (-1 - -1) - (0 - 0) * (-1 - -1)) * 0 = (0.1 : ℝ)
    norm_num
  have hnum : glm.dot (glm.cross ((⟨1, -1, 0⟩ : vec3) - ⟨0, -1, 0⟩)
      ((⟨0, -1, 1⟩ : vec3) - ⟨0, -1, 0⟩)) ((⟨0, -1, 0⟩ : vec3) - ⟨x, 0, 0⟩) = 1 := by
    show (((-1 : ℝ) - -1) * (1 - 0) - (-1 - -1) * (0 - 0)) * (0 - x)
      + ((0 - 0) * (0 - 0) - (1 - 0) * (1 - 0)) * (-1 - 0)
      + ((1 - 0) * (-1 - -1) - (0 - 0) * (-1 - -1)) * (0 - 0) = (1 : ℝ)
    norm_num
  have h10 : ¬ (0.1 : ℝ) = 0 := by norm_num
  simp only [Cone._findIntersectionWithPlane, hden, hnum, h10, if_false, Option.some.injEq]
  ext <;> norm_num

/-- The side quadratic of the far cone has no real root on a ray of direction
`(1,-0.1,0)` starting at height 0 with `-10 ≤ x ≤ 0`. -/
theorem farGeometry_no_root (x : ℝ) (h0 : -10 ≤ x) (h1 : x ≤ 0) :
    Tools.calculateQuadratic
      ((farGeometry.transformedRayDirection ⟨⟨x, 0, 0⟩, ⟨1, -0.1, 0⟩⟩).x ^ 2
        + (farGeometry.transformedRayDirection ⟨⟨x, 0, 0⟩, ⟨1, -0.1, 0⟩⟩).z ^ 2
        - (farGeometry.transformedRayDirection ⟨⟨x, 0, 0⟩, ⟨1, -0.1, 0⟩⟩).y ^ 2)
      (2 * (farGeometry.transformedRayOrigin ⟨⟨x, 0, 0⟩, ⟨1, -0.1, 0⟩⟩).x
          * (farGeometry.transformedRayDirection ⟨⟨x, 0, 0⟩, ⟨1, -0.1, 0⟩⟩).x
        + 2 * (farGeometry.transformedRayOrigin ⟨⟨x, 0, 0⟩, ⟨1, -0.1, 0⟩⟩).z
          * (farGeometry.transformedRayDirection ⟨⟨x, 0, 0⟩, ⟨1, -0.1, 0⟩⟩).z
        - 2 * (farGeometry.transformedRayOrigin ⟨⟨x, 0, 0⟩, ⟨1, -0.1, 0⟩⟩).y
          * (farGeometry.transformedRayDirection ⟨⟨x, 0, 0⟩, ⟨1, -0.1, 0⟩⟩).y)
      ((farGeometry.transformedRayOrigin ⟨⟨x, 0, 0⟩, ⟨1, -0.1, 0⟩⟩).x ^ 2
        + (farGeometry.transformedRayOrigin ⟨⟨x, 0, 0⟩, ⟨1, -0.1, 0⟩⟩).z ^ 2
        - (farGeometry.transformedRayOrigin ⟨⟨x, 0, 0⟩, ⟨1, -0.1, 0⟩⟩).y ^ 2) = none := by
  rw [(farGeometry_ray ⟨x, 0, 0⟩).1, (farGeometry_ray ⟨x, 0, 0⟩).2]
  apply (Tools.calculateQuadratic_contract _ _ _ ?_).1
  · norm_num
    nlinarith
  · norm_num

/-- Witness for C11: the solver model, the helper model and a cone ten units
back along Z; the ray landing at radial distance `0.9999` is accepted with normal
`(0,-1,0)` and the ray landing at `1.0001` is rejected. -/
theorem Cone.intersect_base_boundary_witness :
    Cone.hit Tools.calculateQuadratic Cone._findIntersectionWithPlane farGeometry rimInsideRay
        = some ⟨true, ⟨0.9999, -1, 0⟩, ⟨0, -1, 0⟩⟩ ∧
      Cone.intersect Tools.calculateQuadratic Cone._findIntersectionWithPlane farGeometry
        rimOutsideRay = none := by
  have hin : Cone._findIntersectionWithPlane rimInsideRay ⟨0, -1, 0⟩ ⟨1, -1, 0⟩ ⟨0, -1, 1⟩
      = some ⟨0.9999, -1, 0⟩ := by
    rw [rimInsideRay, Cone.plane_model_sample]
    norm_num
  have hout : Cone._findIntersectionWithPlane rimOutsideRay ⟨0, -1, 0⟩ ⟨1, -1, 0⟩ ⟨0, -1, 1⟩
      = some ⟨1.0001, -1, 0⟩ := by
    rw [rimOutsideRay, Cone.plane_model_sample]
    norm_num
  have hsin : Real.sqrt ((0.9999 : ℝ) ^ 2 + (0 : ℝ) ^ 2) = 0.9999 := by
    rw [show (0.9999 : ℝ) ^ 2 + (0 : ℝ) ^ 2 = 0.9999 ^ 2 by norm_num]
    exact Real.sqrt_sq (by norm_num)
  have hsout : Real.sqrt ((1.0001 : ℝ) ^ 2 + (0 : ℝ) ^ 2) = 1.0001 := by
    rw [show (1.0001 : ℝ) ^ 2 + (0 : ℝ) ^ 2 = 1.0001 ^ 2 by norm_num]
    exact Real.sqrt_sq (by norm_num)
  refine ⟨((Cone.intersect_base_boundary Tools.calculateQuadratic
      Cone._findIntersectionWithPlane farGeometry rimInsideRay ⟨0.9999, -1, 0⟩
      (farGeometry_no_root _ (by norm_num) (by norm_num)) hin).2.1 ?_).1,
    (Cone.intersect_base_boundary Tools.calculateQuadratic
      Cone._findIntersectionWithPlane farGeometry rimOutsideRay ⟨1.0001, -1, 0⟩
      (farGeometry_no_root _ (by norm_num) (by norm_num)) hout).2.2.1 hsout⟩
  show Real.sqrt ((0.9999 : ℝ) ^ 2 + (0 : ℝ) ^ 2) < 1.0001
  rw [hsin]
  norm_num

/-! ## The transform built by the constructor -/

theorem glm.translate_one (p : vec3) : glm.translate 1 p = translationMatrix p := by
  rw [glm.translate, translationMatrix, one_mul]

theorem glm.scale_one (s : vec3) : glm.scale 1 s = scalingMatrix s := by
  rw [glm.scale, scalingMatrix, one_mul]

/-- The transform is the product translation, X, Y, Z rotation, scaling. -/
theorem Geometry.new_transform_eq {Material : Type} (p o s : vec3) (mtl : Material) :
    (Geometry.new p o s mtl)._transformationMatrix
      = translationMatrix p * rotationX o.x * rotationY o.y * rotationZ o.z
        * scalingMatrix s := by
  show glm.translate 1 p * glm.rotate 1 o.x ⟨1, 0, 0⟩ * glm.rotate 1 o.y ⟨0, 1, 0⟩
      * glm.rotate 1 o.z ⟨0, 0, 1⟩ * glm.scale 1 s = _
  rw [glm.translate_one, glm.scale_one, glm.rotate_x, glm.rotate_y, glm.rotate_z]
  rfl

theorem translationMatrix_mulVec (p v : vec3) :
    Matrix.mulVec (translationMatrix p) (mkVec4 v 1) = mkVec4 (translatePoint p v) 1 := by
  ext i
  fin_cases i <;>
    simp [translationMatrix, translatePoint, mkVec4, Matrix.mulVec, Matrix.dotProduct,
      Fin.sum_univ_four, Matrix.vecHead, Matrix.vecTail]

theorem scalingMatrix_mulVec (s v : vec3) :
    Matrix.mulVec (scalingMatrix s) (mkVec4 v 1) = mkVec4 (scalePoint s v) 1 := by
  ext i
  fin_cases i <;>
    simp [scalingMatrix, scalePoint, mkVec4, Matrix.mulVec, Matrix.dotProduct,
      Fin.sum_univ_four, Matrix.vecHead, Matrix.vecTail]

theorem rotationX_mulVec (angle : ℝ) (v : vec3) :
    Matrix.mulVec (rotationX angle) (mkVec4 v 1) = mkVec4 (rotatePointX angle v) 1 := by
  ext i
  fin_cases i <;>
    simp [rotationX, rotatePointX, mkVec4, Matrix.mulVec, Matrix.dotProduct,
      Fin.sum_univ_four, Matrix.vecHead, Matrix.vecTail]
  ring

theorem rotationY_mulVec (angle : ℝ) (v : vec3) :
    Matrix.mulVec (rotationY angle) (mkVec4 v 1) = mkVec4 (rotatePointY angle v) 1 := by
  ext i
  fin_cases i <;>
    simp [rotationY, rotatePointY, mkVec4, Matrix.mulVec, Matrix.dotProduct,
      Fin.sum_univ_four, Matrix.vecHead, Matrix.vecTail]

theorem rotationZ_mulVec (angle : ℝ) (v : vec3) :
    Matrix.mulVec (rotationZ angle) (mkVec4 v 1) = mkVec4 (rotatePointZ angle v) 1 := by
  ext i
  fin_cases i <;>
    simp [rotationZ, rotatePointZ, mkVec4, Matrix.mulVec, Matrix.dotProduct,
      Fin.sum_univ_four, Matrix.vecHead, Matrix.vecTail]
  ring

theorem toVec3_mkVec4 (v : vec3) (w : ℝ) : toVec3 (mkVec4 v w) = v := by
  simp [toVec3, mkVec4]

/-- The forward transform of a point, factor by factor. -/
theorem Geometry.new_forward {Material : Type} (p o s v : vec3) (mtl : Material) :
    (Geometry.new p o s mtl).forward v
      = translatePoint p (rotatePointX o.x (rotatePointY o.y (rotatePointZ o.z
          (scalePoint s v)))) := by
  rw [Geometry.forward, Geometry.new_transform_eq, ← Matrix.mulVec_mulVec,
    ← Matrix.mulVec_mulVec, ← Matrix.mulVec_mulVec, ← Matrix.mulVec_mulVec,
    scalingMatrix_mulVec, rotationZ_mulVec, rotationY_mulVec, rotationX_mulVec,
    translationMatrix_mulVec, toVec3_mkVec4]

/-- C12, as amended. Transform composition order: for every position `p`, Euler
angles `(rx, ry, rz)`, scale `s` and point `v`, the matrix built by the
constructor is `T(p) * Rx(rx) * Ry(ry) * Rz(rz) * S(s)`, so it maps `v` by
scaling first, then rotating about Z, then about Y, then about X, then
translating. -/
theorem Geometry.new_composition_order {Material : Type} (p o s v : vec3) (mtl : Material) :
    (Geometry.new p o s mtl)._transformationMatrix
        = translationMatrix p * rotationX o.x * rotationY o.y * rotationZ o.z
          * scalingMatrix s ∧
      (Geometry.new p o s mtl).forward v
        = translatePoint p (rotatePointX o.x (rotatePointY o.y (rotatePointZ o.z
            (scalePoint s v)))) := by
  exact ⟨Geometry.new_transform_eq p o s mtl, Geometry.new_forward p o s v mtl⟩

/-- C12, counterexample. With a quarter turn about X and about Y, no scaling and
no translation, the constructed transform sends `(1,0,0)` to `(0,1,0)`, whereas
scaling, then rotating about X, then Y, then Z, then translating, sends it to
`(0,0,-1)`; the matrix is not `T * Rz * Ry * Rx * S`. -/
theorem Geometry.new_composition_order_counterexample :
    (Geometry.new ⟨0, 0, 0⟩ quarterTurns ⟨1, 1, 1⟩ ()).forward ⟨1, 0, 0⟩ = ⟨0, 1, 0⟩ ∧
      translatePoint ⟨0, 0, 0⟩ (rotatePointZ quarterTurns.z (rotatePointY quarterTurns.y
        (rotatePointX quarterTurns.x (scalePoint ⟨1, 1, 1⟩ ⟨1, 0, 0⟩)))) = ⟨0, 0, -1⟩ ∧
      toVec3 (Matrix.mulVec (Geometry.statedTransform ⟨0, 0, 0⟩ quarterTurns ⟨1, 1, 1⟩)
        (mkVec4 ⟨1, 0, 0⟩ 1)) = ⟨0, 0, -1⟩ ∧
      (Geometry.new ⟨0, 0, 0⟩ quarterTurns ⟨1, 1, 1⟩ ())._transformationMatrix
        ≠ Geometry.statedTransform ⟨0, 0, 0⟩ quarterTurns ⟨1, 1, 1⟩ := by
  have h1 : (Geometry.new ⟨0, 0, 0⟩ quarterTurns ⟨1, 1, 1⟩ ()).forward ⟨1, 0, 0⟩
      = ⟨0, 1, 0⟩ := by
    rw [Geometry.new_forward]
    ext <;>
      simp [translatePoint, rotatePointX, rotatePointY, rotatePointZ, scalePoint, quarterTurns]
  have h2 : translatePoint ⟨0, 0, 0⟩ (rotatePointZ quarterTurns.z (rotatePointY quarterTurns.y
      (rotatePointX quarterTurns.x (scalePoint ⟨1, 1, 1⟩ ⟨1, 0, 0⟩)))) = ⟨0, 0, -1⟩ := by
    ext <;>
      simp [translatePoint, rotatePointX, rotatePointY, rotatePointZ, scalePoint, quarterTurns]
  have h3 : toVec3 (Matrix.mulVec (Geometry.statedTransform ⟨0, 0, 0⟩ quarterTurns ⟨1, 1, 1⟩)
      (mkVec4 ⟨1, 0, 0⟩ 1)) = ⟨0, 0, -1⟩ := by
    rw [Geometry.statedTransform, ← Matrix.mulVec_mulVec,
      ← Matrix.mulVec_mulVec, ← Matrix.mulVec_mulVec, ← Matrix.mulVec_mulVec,
      scalingMatrix_mulVec, rotationX_mulVec, rotationY_mulVec, rotationZ_mulVec,
      translationMatrix_mulVec, toVec3_mkVec4]
    exact h2
  refine ⟨h1, h2, h3, fun h => ?_⟩
  have h4 : (Geometry.new ⟨0, 0, 0⟩ quarterTurns ⟨1, 1, 1⟩ ()).forward ⟨1, 0, 0⟩
      = ⟨0, 0, -1⟩ := by
    rw [Geometry.forward, h]
    exact h3
  rw [h1] at h4
  have hy := congrArg vec3.y h4
  norm_num at hy

/-! ## Determinant of the transform -/

theorem translationMatrix_det (p : vec3) : (translationMatrix p).det = 1 := by
  rw [translationMatrix, Matrix.det_succ_row_zero]
  simp [Fin.sum_univ_succ, Matrix.det_fin_three, Fin.succAbove, Matrix.submatrix,
    Matrix.vecHead, Matrix.vecTail]

theorem scalingMatrix_det (s : vec3) : (scalingMatrix s).det = s.x * s.y * s.z := by
  rw [scalingMatrix, Matrix.det_succ_row_zero]
  simp [Fin.sum_univ_succ, Matrix.det_fin_three, Fin.succAbove, Matrix.submatrix,
    Matrix.vecHead, Matrix.vecTail]
  ring

theorem rotationX_det (angle : ℝ) : (rotationX angle).det = 1 := by
  rw [rotationX, Matrix.det_succ_row_zero]
  simp [Fin.sum_univ_succ, Matrix.det_fin_three, Fin.succAbove, Matrix.submatrix,
    Matrix.vecHead, Matrix.vecTail]
  nlinarith [Real.sin_sq_add_cos_sq angle]

theorem rotationY_det (angle : ℝ) : (rotationY angle).det = 1 := by
  rw [rotationY, Matrix.det_succ_row_zero]
  simp [Fin.sum_univ_succ, Matrix.det_fin_three, Fin.succAbove, Matrix.submatrix,
    Matrix.vecHead, Matrix.vecTail]
  nlinarith [Real.sin_sq_add_cos_sq angle]

theorem rotationZ_det (angle : ℝ) : (rotationZ angle).det = 1 := by
  rw [rotationZ, Matrix.det_succ_row_zero]
  simp [Fin.sum_univ_succ, Matrix.det_fin_three, Fin.succAbove, Matrix.submatrix,
    Matrix.vecHead, Matrix.vecTail]
  nlinarith [Real.sin_sq_add_cos_sq angle]

/-- The determinant of the constructed transform is the product of the scale
components, whatever the position and the orientation. -/
theorem Geometry.new_transform_det {Material : Type} (p o s : vec3) (mtl : Material) :
    (Geometry.new p o s mtl)._transformationMatrix.det = s.x * s.y * s.z := by
  rw [Geometry.new_transform_eq, Matrix.det_mul, Matrix.det_mul, Matrix.det_mul, Matrix.det_mul,
    translationMatrix_det, rotationX_det, rotationY_det, rotationZ_det, scalingMatrix_det]
  ring

/-- C13. Invertible transform: for every position, every triple of Euler angles
and every scale whose three components are all non-zero, the composed transform
has determinant `sx * sy * sz`, which is not zero, and the stored inverse is a
two-sided inverse: `transform * inverseTransform = inverseTransform * transform`
is the identity. -/
theorem Geometry.new_transform_inverse {Material : Type} (p o s : vec3) (mtl : Material)
    (hx : s.x ≠ 0) (hy : s.y ≠ 0) (hz : s.z ≠ 0) :
    (Geometry.new p o s mtl)._transformationMatrix.det = s.x * s.y * s.z ∧
      (Geometry.new p o s mtl)._transformationMatrix.det ≠ 0 ∧
      (Geometry.new p o s mtl)._transformationMatrix
        * (Geometry.new p o s mtl)._transformationMatrixInverse = 1 ∧
      (Geometry.new p o s mtl)._transformationMatrixInverse
        * (Geometry.new p o s mtl)._transformationMatrix = 1 := by
  have hdet := Geometry.new_transform_det p o s mtl
  have hne : (Geometry.new p o s mtl)._transformationMatrix.det ≠ 0 := by
    rw [hdet]
    exact mul_ne_zero (mul_ne_zero hx hy) hz
  have hu : IsUnit (Geometry.new p o s mtl)._transformationMatrix.det := isUnit_iff_ne_zero.mpr hne
  exact ⟨hdet, hne, Matrix.mul_nonsing_inv _ hu, Matrix.nonsing_inv_mul _ hu⟩

/-- Witness for C13: position `(1,0,0)`, a quarter turn about X and about Y,
scale `(2,1,1)`. -/
theorem Geometry.new_transform_inverse_witness :
    (Geometry.new ⟨1, 0, 0⟩ quarterTurns ⟨2, 1, 1⟩ ())._transformationMatrix.det = 2 ∧
      (Geometry.new ⟨1, 0, 0⟩ quarterTurns ⟨2, 1, 1⟩ ())._transformationMatrix
        * (Geometry.new ⟨1, 0, 0⟩ quarterTurns ⟨2, 1, 1⟩ ())._transformationMatrixInverse = 1 ∧
      (Geometry.new ⟨1, 0, 0⟩ quarterTurns ⟨2, 1, 1⟩ ())._transformationMatrixInverse
        * (Geometry.new ⟨1, 0, 0⟩ quarterTurns ⟨2, 1, 1⟩ ())._transformationMatrix = 1 := by
  have h := Geometry.new_transform_inverse ⟨1, 0, 0⟩ quarterTurns ⟨2, 1, 1⟩ ()
    (by norm_num) (by norm_num) (by norm_num)
  refine ⟨?_, h.2.2.1, h.2.2.2⟩
  rw [h.1]
  norm_num

/-! ## Degenerate scale -/

/-- C14, as amended. Degenerate scale: for every position and orientation,
constructing a Geometry with a scale that has a component equal to zero does not
fail; it produces a Geometry whose transform has determinant `0`, so that no
matrix, and in particular not the stored inverse, is an inverse of it. -/
theorem Geometry.construct_degenerate {Material : Type} (p o s : vec3) (mtl : Material)
    (hs : s.x = 0 ∨ s.y = 0 ∨ s.z = 0) :
    Geometry.construct p o s mtl = Except.ok (Geometry.new p o s mtl) ∧
      (Geometry.new p o s mtl)._transformationMatrix.det = 0 ∧
      (∀ B : mat4, (Geometry.new p o s mtl)._transformationMatrix * B ≠ 1) ∧
      (Geometry.new p o s mtl)._transformationMatrix
        * (Geometry.new p o s mtl)._transformationMatrixInverse ≠ 1 := by
  have hdet : (Geometry.new p o s mtl)._transformationMatrix.det = 0 := by
    rw [Geometry.new_transform_det]
    rcases hs with h | h | h <;> rw [h] <;> ring
  have hno : ∀ B : mat4, (Geometry.new p o s mtl)._transformationMatrix * B ≠ 1 := by
    intro B hB
    have hu := Matrix.isUnit_det_of_right_inverse hB
    rw [hdet] at hu
    exact not_isUnit_zero hu
  exact ⟨rfl, hdet, hno, hno _⟩

/-- Witness for C14: the scale `(0,1,1)` at the origin, unrotated. -/
theorem Geometry.construct_degenerate_witness :
    Geometry.construct ⟨0, 0, 0⟩ ⟨0, 0, 0⟩ flatScale ()
        = Except.ok (Geometry.new ⟨0, 0, 0⟩ ⟨0, 0, 0⟩ flatScale ()) ∧
      (Geometry.new ⟨0, 0, 0⟩ ⟨0, 0, 0⟩ flatScale ())._transformationMatrix.det = 0 :=
  ⟨(Geometry.construct_degenerate ⟨0, 0, 0⟩ ⟨0, 0, 0⟩ flatScale () (Or.inl rfl)).1,
    (Geometry.construct_degenerate ⟨0, 0, 0⟩ ⟨0, 0, 0⟩ flatScale () (Or.inl rfl)).2.1⟩

/-- C14, counterexample. Constructing a Geometry with the scale `(0,1,1)` raises
no configuration error: the outcome is a Geometry. -/
theorem Geometry.construct_degenerate_counterexample :
    flatScale.x = 0 ∧
      ∃ G : Geometry Unit, Geometry.construct ⟨0, 0, 0⟩ ⟨0, 0, 0⟩ flatScale () = Except.ok G ∧
        ∀ e : ConfigurationError,
          Geometry.construct ⟨0, 0, 0⟩ ⟨0, 0, 0⟩ flatScale () ≠ Except.error e := by
  refine ⟨rfl, Geometry.new ⟨0, 0, 0⟩ ⟨0, 0, 0⟩ flatScale (), rfl, fun e h => ?_⟩
  rw [Geometry.construct] at h
  exact absurd h (by simp)

/-! ## Cylinder: which root is tested -/

/-- The object-space hit point of the cylinder, from the solver result. -/
theorem Cylinder.intersectionPoint_of_roots {Material : Type}
    {solve : ℝ → ℝ → ℝ → Option (ℝ × ℝ)} {G : Geometry Material} {ray : Ray} {t0 t1 : ℝ}
    (hs : solve
      ((G.transformedRayDirection ray).x ^ 2 + (G.transformedRayDirection ray).z ^ 2)
      (2 * (G.transformedRayOrigin ray).x * (G.transformedRayDirection ray).x
        + 2 * (G.transformedRayOrigin ray).z * (G.transformedRayDirection ray).z)
      ((G.transformedRayOrigin ray).x ^ 2 + (G.transformedRayOrigin ray).z ^ 2 - 1)
      = some (t0, t1)) :
    Cylinder.intersectionPoint solve G ray
      = if 0 > t1 then none
        else if (G.transformedRayOrigin ray + selectRoot t0 t1 * G.transformedRayDirection ray).y
              < -1 ∨
            (G.transformedRayOrigin ray + selectRoot t0 t1 * G.transformedRayDirection ray).y > 1
          then none
          else some (G.transformedRayOrigin ray
            + selectRoot t0 t1 * G.transformedRayDirection ray) := by
  unfold Cylinder.intersectionPoint
  simp only [hs]

/-- C15, as amended. Cylinder hit: under the identity transform and a solver
meeting the contract, for every ray not parallel to the Y axis, the `intersect`
of Cylinder.cpp returns a record exactly when the first meeting of the ray with
the unclipped lateral surface `x² + z² = 1` (the smallest `t ≥ 0`) has
`-1 ≤ y ≤ 1`; the hit is then at that `t`, which is the smallest `t ≥ 0` on the
clipped surface. The farther root is never tried when the nearer one is out of
the clip range. -/
theorem Cylinder.intersect_first_wall_meeting {Material : Type}
    (solve : ℝ → ℝ → ℝ → Option (ℝ × ℝ)) (hq : QuadraticContract solve)
    (G : Geometry Material) (hG : G.IsIdentity) (ray : Ray)
    (hd : ray.direction.x ^ 2 + ray.direction.z ^ 2 ≠ 0) :
    ((Cylinder.intersect solve G ray).isSome ↔
        ∃ t : ℝ, 0 ≤ t ∧
          (ray.origin + t * ray.direction).x ^ 2 + (ray.origin + t * ray.direction).z ^ 2 = 1 ∧
          (∀ s : ℝ, 0 ≤ s →
            (ray.origin + s * ray.direction).x ^ 2 + (ray.origin + s * ray.direction).z ^ 2 = 1 →
            t ≤ s) ∧
          -1 ≤ (ray.origin + t * ray.direction).y ∧ (ray.origin + t * ray.direction).y ≤ 1) ∧
      ∀ p, Cylinder.intersectionPoint solve G ray = some p →
        ∃ t : ℝ, 0 ≤ t ∧ p = ray.origin + t * ray.direction ∧
          p.x ^ 2 + p.z ^ 2 = 1 ∧ -1 ≤ p.y ∧ p.y ≤ 1 ∧
          ∀ s : ℝ, 0 ≤ s →
            (ray.origin + s * ray.direction).x ^ 2 + (ray.origin + s * ray.direction).z ^ 2 = 1 →
            -1 ≤ (ray.origin + s * ray.direction).y → (ray.origin + s * ray.direction).y ≤ 1 →
            t ≤ s := by
  have hwall : ∀ t : ℝ,
      (ray.origin + t * ray.direction).x ^ 2 + (ray.origin + t * ray.direction).z ^ 2 = 1 ↔
        (ray.direction.x ^ 2 + ray.direction.z ^ 2) * t ^ 2
          + (2 * ray.origin.x * ray.direction.x + 2 * ray.origin.z * ray.direction.z) * t
          + (ray.origin.x ^ 2 + ray.origin.z ^ 2 - 1) = 0 := by
    intro t
    rw [Cylinder.lateral_quadratic_eq]
    constructor <;> intro h <;> linarith
  have hsome : (Cylinder.intersect solve G ray).isSome
      = (Cylinder.intersectionPoint solve G ray).isSome := by
    rw [Cylinder.intersect, Option.isSome_map']
  rw [hsome]
  cases hs : solve (ray.direction.x ^ 2 + ray.direction.z ^ 2)
      (2 * ray.origin.x * ray.direction.x + 2 * ray.origin.z * ray.direction.z)
      (ray.origin.x ^ 2 + ray.origin.z ^ 2 - 1) with
  | none =>
    have hnone : Cylinder.intersectionPoint solve G ray = none := by
      unfold Cylinder.intersectionPoint
      simp only [hG.transformedRayOrigin, hG.transformedRayDirection, hs]
    have hdisc : (2 * ray.origin.x * ray.direction.x + 2 * ray.origin.z * ray.direction.z) ^ 2
        - 4 * (ray.direction.x ^ 2 + ray.direction.z ^ 2)
          * (ray.origin.x ^ 2 + ray.origin.z ^ 2 - 1) < 0 := by
      by_contra hcon
      obtain ⟨u0, u1, hu, -, -⟩ := (hq _ _ _ hd).2 (not_lt.mp hcon)
      rw [hu] at hs
      exact absurd hs (by simp)
    rw [hnone]
    refine ⟨?_, fun p hp => absurd hp (by simp)⟩
    simp only [Option.isSome_none, Bool.false_eq_true, false_iff, not_exists, not_and]
    intro t _ ht
    exact absurd ((hwall t).mp ht) (no_root_of_discriminant_neg hdisc t)
  | some pr =>
    obtain ⟨t0, t1⟩ := pr
    obtain ⟨-, hle, hf⟩ := hq.factor hd hs
    have hpt := @Cylinder.intersectionPoint_of_roots Material solve G ray t0 t1
      (by rw [hG.transformedRayOrigin, hG.transformedRayDirection]; exact hs)
    rw [hG.transformedRayOrigin, hG.transformedRayDirection] at hpt
    by_cases h1 : 0 > t1
    · rw [hpt, if_pos h1]
      refine ⟨?_, fun p hp => absurd hp (by simp)⟩
      simp only [Option.isSome_none, Bool.false_eq_true, false_iff, not_exists, not_and]
      intro t ht hw
      have h0 := (hwall t).mp hw
      rw [hf t] at h0
      rcases mul_eq_zero.mp h0 with h | h
      · rcases mul_eq_zero.mp h with h | h
        · exact absurd h hd
        · intro _
          linarith
      · intro _
        linarith
    · obtain ⟨hnn, hroot, hmin⟩ := selectRoot_spec hd hle h1
      have hon : (ray.origin + selectRoot t0 t1 * ray.direction).x ^ 2
          + (ray.origin + selectRoot t0 t1 * ray.direction).z ^ 2 = 1 := by
        rw [hwall, hf]
        exact hroot
      have hminw : ∀ s : ℝ, 0 ≤ s →
          (ray.origin + s * ray.direction).x ^ 2 + (ray.origin + s * ray.direction).z ^ 2 = 1 →
          selectRoot t0 t1 ≤ s := by
        intro s hs0 hw
        apply hmin s hs0
        rw [← hf]
        exact (hwall s).mp hw
      by_cases hy : (ray.origin + selectRoot t0 t1 * ray.direction).y < -1 ∨
          (ray.origin + selectRoot t0 t1 * ray.direction).y > 1
      · rw [hpt, if_neg h1, if_pos hy]
        refine ⟨?_, fun p hp => absurd hp (by simp)⟩
        simp only [Option.isSome_none, Bool.false_eq_true, false_iff, not_exists, not_and]
        intro t ht hw hmint hlo hhi
        have e1 : t = selectRoot t0 t1 :=
          le_antisymm (hmint _ hnn hon) (hminw t ht hw)
        rw [e1] at hlo hhi
        rcases hy with h | h
        · linarith
        · linarith
      · rw [hpt, if_neg h1, if_neg hy]
        rw [not_or] at hy
        refine ⟨?_, fun p hp => ?_⟩
        · simp only [Option.isSome_some, true_iff]
          exact ⟨selectRoot t0 t1, hnn, hon, hminw, not_lt.mp hy.1, not_lt.mp hy.2⟩
        · simp only [Option.some.injEq] at hp
          subst hp
          exact ⟨selectRoot t0 t1, hnn, rfl, hon, not_lt.mp hy.1, not_lt.mp hy.2,
            fun s hs0 hw _ _ => hminw s hs0 hw⟩

/-- Witness for C15: the solver model, the unit geometry and the ray of the
cylinder example, which is hit. -/
theorem Cylinder.intersect_first_wall_meeting_witness :
    cylinderRay.direction.x ^ 2 + cylinderRay.direction.z ^ 2 ≠ 0 ∧
      ((Cylinder.intersect Tools.calculateQuadratic unitGeometry cylinderRay).isSome ↔
        ∃ t : ℝ, 0 ≤ t ∧
          (cylinderRay.origin + t * cylinderRay.direction).x ^ 2
            + (cylinderRay.origin + t * cylinderRay.direction).z ^ 2 = 1 ∧
          (∀ s : ℝ, 0 ≤ s →
            (cylinderRay.origin + s * cylinderRay.direction).x ^ 2
              + (cylinderRay.origin + s * cylinderRay.direction).z ^ 2 = 1 → t ≤ s) ∧
          -1 ≤ (cylinderRay.origin + t * cylinderRay.direction).y ∧
          (cylinderRay.origin + t * cylinderRay.direction).y ≤ 1) := by
  have hd : cylinderRay.direction.x ^ 2 + cylinderRay.direction.z ^ 2 ≠ 0 := by
    norm_num [cylinderRay]
  exact ⟨hd, (Cylinder.intersect_first_wall_meeting Tools.calculateQuadratic
    Tools.calculateQuadratic_contract unitGeometry unitGeometry_isIdentity cylinderRay hd).1⟩

/-- C15, counterexample. Under the identity transform the ray from `(-2,3,0)`
with direction `(1,-1,0)` is not parallel to the Y axis and meets the clipped
lateral surface at `t = 3`, at the point `(1,0,0)`, after passing over the wall
at `t = 1`; the `intersect` of Cylinder.cpp returns no record. -/
theorem Cylinder.intersect_first_strike_counterexample :
    overTopRay.direction.x ^ 2 + overTopRay.direction.z ^ 2 ≠ 0 ∧
      (0 : ℝ) ≤ 3 ∧
      overTopRay.origin + (3 : ℝ) * overTopRay.direction = ⟨1, 0, 0⟩ ∧
      (overTopRay.origin + (3 : ℝ) * overTopRay.direction).x ^ 2
        + (overTopRay.origin + (3 : ℝ) * overTopRay.direction).z ^ 2 = 1 ∧
      -1 ≤ (overTopRay.origin + (3 : ℝ) * overTopRay.direction).y ∧
      (overTopRay.origin + (3 : ℝ) * overTopRay.direction).y ≤ 1 ∧
      Cylinder.intersect Tools.calculateQuadratic unitGeometry overTopRay = none := by
  have hG := unitGeometry_isIdentity
  have hs : Tools.calculateQuadratic
      ((unitGeometry.transformedRayDirection overTopRay).x ^ 2
        + (unitGeometry.transformedRayDirection overTopRay).z ^ 2)
      (2 * (unitGeometry.transformedRayOrigin overTopRay).x
          * (unitGeometry.transformedRayDirection overTopRay).x
        + 2 * (unitGeometry.transformedRayOrigin overTopRay).z
          * (unitGeometry.transformedRayDirection overTopRay).z)
      ((unitGeometry.transformedRayOrigin overTopRay).x ^ 2
        + (unitGeometry.transformedRayOrigin overTopRay).z ^ 2 - 1) = some (1, 3) := by
    rw [hG.transformedRayOrigin, hG.transformedRayDirection]
    apply Tools.calculateQuadratic_contract.eq_some
    · norm_num [overTopRay]
    · norm_num
    · intro t
      simp only [overTopRay]
      ring
  have hnone : Cylinder.intersectionPoint Tools.calculateQuadratic unitGeometry overTopRay
      = none := by
    rw [Cylinder.intersectionPoint_of_roots hs, hG.transformedRayOrigin,
      hG.transformedRayDirection]
    have h3 : ¬ (0 : ℝ) > 3 := by norm_num
    have h1 : ¬ (0 : ℝ) > 1 := by norm_num
    have hy : (overTopRay.origin + (1 : ℝ) * overTopRay.direction).y < -1 ∨
        (overTopRay.origin + (1 : ℝ) * overTopRay.direction).y > 1 := by
      right
      norm_num [overTopRay]
    simp only [h3, if_false, selectRoot, h1, hy, if_true]
  refine ⟨by norm_num [overTopRay], by norm_num, ?_, ?_, ?_, ?_, ?_⟩
  · ext <;> norm_num [overTopRay]
  · norm_num [overTopRay]
  · norm_num [overTopRay]
  · norm_num [overTopRay]
  · rw [Cylinder.intersect, hnone, Option.map_none']

/-! ## Cone: side hits -/

/-- The state of `Cone::intersect` at line 101, from the solver result. -/
theorem Cone.hit_of_roots {Material : Type}
    {solve : ℝ → ℝ → ℝ → Option (ℝ × ℝ)} {plane : Ray → vec3 → vec3 → vec3 → Option vec3}
    {G : Geometry Material} {ray : Ray} {t0 t1 : ℝ}
    (hs : solve
      ((G.transformedRayDirection ray).x ^ 2 + (G.transformedRayDirection ray).z ^ 2
        - (G.transformedRayDirection ray).y ^ 2)
      (2 * (G.transformedRayOrigin ray).x * (G.transformedRayDirection ray).x
        + 2 * (G.transformedRayOrigin ray).z * (G.transformedRayDirection ray).z
        - 2 * (G.transformedRayOrigin ray).y * (G.transformedRayDirection ray).y)
      ((G.transformedRayOrigin ray).x ^ 2 + (G.transformedRayOrigin ray).z ^ 2
        - (G.transformedRayOrigin ray).y ^ 2) = some (t0, t1)) :
    Cone.hit solve plane G ray
      = if 0 > t1 then none
        else if (G.transformedRayOrigin ray + selectRoot t0 t1 * G.transformedRayDirection ray).y
              < -1.0001 ∨
            (G.transformedRayOrigin ray + selectRoot t0 t1 * G.transformedRayDirection ray).y
              > 0.0001
          then none
          else some ⟨false,
            G.transformedRayOrigin ray + selectRoot t0 t1 * G.transformedRayDirection ray,
            Cone.sideNormal
              (G.transformedRayOrigin ray + selectRoot t0 t1 * G.transformedRayDirection ray)⟩ := by
  unfold Cone.hit
  simp only [hs, Cone.sideNormal]

theorem isFloat32_intCast (n : ℤ) (h : |n| < 2 ^ 24) : IsFloat32 (n : ℝ) :=
  ⟨n, 0, h, by simp⟩

theorem isFloat32_zero : IsFloat32 0 := by
  simpa using isFloat32_intCast 0 (by norm_num)

theorem isFloat32_one : IsFloat32 1 := by
  simpa using isFloat32_intCast 1 (by norm_num)

theorem isFloat32_neg_one : IsFloat32 (-1) := by
  simpa using isFloat32_intCast (-1) (by norm_num)

/-- A value that is already single precision is stored unchanged. -/
theorem StoresAs.eq_of_isFloat32 {x y : ℝ} (hx : IsFloat32 x) (h : StoresAs x y) : y = x := by
  have h1 := h.2 x hx
  rw [sub_self, abs_zero] at h1
  have h2 : |y - x| = 0 := le_antisymm h1 (abs_nonneg _)
  linarith [abs_eq_zero.mp h2]

theorem StoresAs.self {x : ℝ} (hx : IsFloat32 x) : StoresAs x x :=
  ⟨hx, fun z _ => by rw [sub_self, abs_zero]; exact abs_nonneg _⟩

/-- No single-precision value other than `-1` lies within `2 ^ (-24)` of `-1`. -/
theorem isFloat32_gap_neg_one {z : ℝ} (hz : IsFloat32 z) (hne : z ≠ -1) :
    (1 : ℝ) / 2 ^ 24 ≤ |z + 1| := by
  obtain ⟨m, e, hm, rfl⟩ := hz
  have hmR : |(m : ℝ)| < 2 ^ 24 := by
    have : ((|m| : ℤ) : ℝ) < ((2 ^ 24 : ℤ) : ℝ) := by exact_mod_cast hm
    push_cast at this
    norm_num at this ⊢
    exact this
  rcases le_or_lt (-24) e with he | he
  · -- `z * 2 ^ 24` is an integer
    obtain ⟨k, hk⟩ := Int.eq_ofNat_of_zero_le (show 0 ≤ e + 24 by omega)
    have he2 : e = (k : ℤ) - 24 := by omega
    have hpow : (2 : ℝ) ^ e = 2 ^ k / 2 ^ 24 := by
      rw [he2, zpow_sub₀ (by norm_num : (2 : ℝ) ≠ 0), zpow_natCast]
      norm_num
    rw [hpow]
    have hint : (m : ℝ) * (2 ^ k / 2 ^ 24) + 1 = ((m * 2 ^ k + 2 ^ 24 : ℤ) : ℝ) / 2 ^ 24 := by
      push_cast
      field_simp
      norm_num
    rw [hint, abs_div, abs_of_pos (by positivity : (0 : ℝ) < 2 ^ 24)]
    apply div_le_div_of_nonneg_right _ (by positivity)
    have hnz : (m * 2 ^ k + 2 ^ 24 : ℤ) ≠ 0 := by
      intro h0
      apply hne
      rw [hpow]
      have : ((m * 2 ^ k + 2 ^ 24 : ℤ) : ℝ) = 0 := by exact_mod_cast h0
      push_cast at this
      field_simp
      linarith
    have h1 : (1 : ℤ) ≤ |m * 2 ^ k + 2 ^ 24| := Int.one_le_abs hnz
    have : ((1 : ℤ) : ℝ) ≤ ((|m * 2 ^ k + 2 ^ 24| : ℤ) : ℝ) := by exact_mod_cast h1
    simpa using this
  · -- `|z| < 1/2`
    have hpow : (2 : ℝ) ^ e ≤ 2 ^ (-25 : ℤ) :=
      zpow_le_zpow_right₀ (by norm_num) (by omega)
    have hpos : (0 : ℝ) < 2 ^ e := by positivity
    have h25 : (2 : ℝ) ^ (-25 : ℤ) = 1 / 2 ^ 25 := by
      rw [zpow_neg, zpow_ofNat]
      norm_num
    have habs : |(m : ℝ) * 2 ^ e| ≤ 1 / 2 := by
      rw [abs_mul, abs_of_pos hpos]
      calc |(m : ℝ)| * 2 ^ e ≤ 2 ^ 24 * 2 ^ (-25 : ℤ) :=
            mul_le_mul hmR.le hpow hpos.le (by positivity)
        _ = 1 / 2 := by rw [h25]; norm_num
    have h2 := abs_le.mp habs
    have h3 : (1 : ℝ) / 2 ≤ (m : ℝ) * 2 ^ e + 1 := by linarith [h2.1]
    rw [abs_of_pos (by linarith)]
    have : (1 : ℝ) / 2 ^ 24 ≤ 1 / 2 := by norm_num
    linarith

/-- The value `x² − 1` with `x = 2 ^ (-13)` is stored as `-1`, and as nothing else. -/
theorem storesAs_near_neg_one (c : ℝ) :
    StoresAs ((1 : ℝ) / 67108864 - 1) c ↔ c = -1 := by
  constructor
  · intro h
    by_contra hne
    have hgap := isFloat32_gap_neg_one h.1 hne
    have hnear := h.2 (-1) isFloat32_neg_one
    have e1 : |(-1 : ℝ) - (1 / 67108864 - 1)| = 1 / 67108864 := by
      rw [show (-1 : ℝ) - (1 / 67108864 - 1) = -(1 / 67108864) by ring, abs_neg,
        abs_of_pos (by norm_num)]
    rw [e1] at hnear
    have e2 : |c + 1| ≤ |c - (1 / 67108864 - 1)| + 1 / 67108864 := by
      have := abs_add (c - (1 / 67108864 - 1)) (1 / 67108864)
      rw [abs_of_pos (by norm_num : (0 : ℝ) < 1 / 67108864)] at this
      calc |c + 1| = |c - (1 / 67108864 - 1) + 1 / 67108864| := by ring_nf
        _ ≤ _ := this
    norm_num at hgap hnear e2
    linarith
  · rintro rfl
    refine ⟨isFloat32_neg_one, fun z hz => ?_⟩
    have e1 : |(-1 : ℝ) - (1 / 67108864 - 1)| = 1 / 67108864 := by
      rw [show (-1 : ℝ) - (1 / 67108864 - 1) = -(1 / 67108864) by ring, abs_neg,
        abs_of_pos (by norm_num)]
    rw [e1]
    by_cases hz1 : z = -1
    · rw [hz1, e1]
    · have hgap := isFloat32_gap_neg_one hz hz1
      have e2 : |z + 1| ≤ |z - (1 / 67108864 - 1)| + 1 / 67108864 := by
        have := abs_add (z - (1 / 67108864 - 1)) (1 / 67108864)
        rw [abs_of_pos (by norm_num : (0 : ℝ) < 1 / 67108864)] at this
        calc |z + 1| = |z - (1 / 67108864 - 1) + 1 / 67108864| := by ring_nf
          _ ≤ _ := this
      norm_num at hgap e2 ⊢
      linarith

/-- The tolerance `0.0001` is not a single-precision value (it is not a dyadic
fraction). -/
theorem not_isFloat32_epsilon : ¬ IsFloat32 (0.0001 : ℝ) := by
  rintro ⟨m, e, -, h⟩
  rcases le_or_lt 0 e with he | he
  · obtain ⟨k, hk⟩ := Int.eq_ofNat_of_zero_le he
    rw [hk, zpow_natCast] at h
    have h2 : ((10000 * (m * 2 ^ k) : ℤ) : ℝ) = ((1 : ℤ) : ℝ) := by
      push_cast
      rw [← h]
      norm_num
    have h3 : (10000 * (m * 2 ^ k) : ℤ) = 1 := by exact_mod_cast h2
    omega
  · obtain ⟨k, hk⟩ := Int.eq_ofNat_of_zero_le (show 0 ≤ -e by omega)
    have he2 : e = -(k : ℤ) := by omega
    rw [he2, zpow_neg, zpow_natCast] at h
    have h2 : ((10000 * m : ℤ) : ℝ) = ((2 ^ k : ℤ) : ℝ) := by
      push_cast
      have hp : (0 : ℝ) < 2 ^ k := by positivity
      field_simp at h
      norm_num at h
      linarith
    have h3 : (10000 * m : ℤ) = 2 ^ k := by exact_mod_cast h2
    have h5 : (5 : ℤ) ∣ 2 ^ k := ⟨2000 * m, by rw [← h3]; ring⟩
    have h6 : (5 : ℤ) ∣ 2 := Int.Prime.dvd_pow' (by norm_num) h5
    omega

theorem isFloat32_neg {x : ℝ} (h : IsFloat32 x) : IsFloat32 (-x) := by
  obtain ⟨m, e, hm, rfl⟩ := h
  exact ⟨-m, e, by rwa [abs_neg], by push_cast; ring⟩

theorem IsFloat32.ne_neg_epsilon {x : ℝ} (h : IsFloat32 x) : x ≠ -0.0001 := by
  intro hx
  apply not_isFloat32_epsilon
  have := isFloat32_neg h
  rw [hx, neg_neg] at this
  exact this

/-! ## Cylinder: hits from stored coefficients -/

/-- With the exact coefficients, lines 32-55 give the exact reading of the hit
point. -/
theorem Cylinder.intersectionPoint_eq_from {Material : Type}
    (solve : ℝ → ℝ → ℝ → Option (ℝ × ℝ)) (G : Geometry Material) (ray : Ray) :
    Cylinder.intersectionPoint solve G ray
      = Cylinder.intersectionPointFrom solve (G.transformedRayOrigin ray)
          (G.transformedRayDirection ray)
          ((G.transformedRayDirection ray).x ^ 2 + (G.transformedRayDirection ray).z ^ 2)
          (2 * (G.transformedRayOrigin ray).x * (G.transformedRayDirection ray).x
            + 2 * (G.transformedRayOrigin ray).z * (G.transformedRayDirection ray).z)
          ((G.transformedRayOrigin ray).x ^ 2 + (G.transformedRayOrigin ray).z ^ 2 - 1) :=
  rfl

/-- Under the identity transform, the ray along `+X` from `(0, 0, z₀)` with
`z₀² = 2⁻²⁶` has stored coefficients `a = 1`, `b = 0`, `c = -1` (the exact
`c = 2⁻²⁶ - 1` is not a single-precision value), so its hit point is
`(1, 0, z₀)`. -/
theorem Cylinder.storedHit_grazing {Material : Type}
    {solve : ℝ → ℝ → ℝ → Option (ℝ × ℝ)} (hq : QuadraticContract solve)
    {G : Geometry Material} (hG : G.IsIdentity) (z0 : ℝ) (hz : z0 ^ 2 = 1 / 67108864)
    (p : vec3) :
    Cylinder.StoredHit solve G ⟨⟨0, 0, z0⟩, ⟨1, 0, 0⟩⟩ p ↔ p = ⟨1, 0, z0⟩ := by
  have hs : solve 1 0 (-1) = some (-1, 1) := by
    apply hq.eq_some
    · norm_num
    · norm_num
    · intro t
      ring
  have hfrom : Cylinder.intersectionPointFrom solve ⟨0, 0, z0⟩ ⟨1, 0, 0⟩ 1 0 (-1)
      = some ⟨1, 0, z0⟩ := by
    unfold Cylinder.intersectionPointFrom
    simp only [hs]
    have h1 : ¬ (0 : ℝ) > 1 := by norm_num
    have h0 : (0 : ℝ) > -1 := by norm_num
    have hy : ¬ ((0 : ℝ) + 1 * 0 < -1 ∨ (0 : ℝ) + 1 * 0 > 1) := by norm_num
    simp only [h1, if_false, selectRoot, h0, if_true, vec3.add_y, vec3.mul_y, hy,
      Option.some.injEq]
    ext <;> simp
  have ea : ((1 : ℝ) ^ 2 + (0 : ℝ) ^ 2) = 1 := by norm_num
  have eb : (2 * (0 : ℝ) * 1 + 2 * z0 * 0) = 0 := by ring
  have ec : ((0 : ℝ) ^ 2 + z0 ^ 2 - 1) = 1 / 67108864 - 1 := by rw [hz]; norm_num
  unfold Cylinder.StoredHit
  simp only [hG.transformedRayOrigin, hG.transformedRayDirection, ea, eb, ec]
  constructor
  · rintro ⟨a, b, c, ha, hb, hc, hp⟩
    have ha1 : a = 1 := ha.eq_of_isFloat32 isFloat32_one
    have hb0 : b = 0 := hb.eq_of_isFloat32 isFloat32_zero
    have hc1 : c = -1 := (storesAs_near_neg_one c).mp hc
    subst ha1 hb0 hc1
    rw [hfrom] at hp
    exact (Option.some.inj hp).symm
  · rintro rfl
    exact ⟨1, 0, -1, StoresAs.self isFloat32_one, StoresAs.self isFloat32_zero,
      (storesAs_near_neg_one (-1)).mpr rfl, hfrom⟩

/-! ## Cylinder: texture coordinates -/

/-- The value of `u` away from `z = 0`, for an argument of `acos` in `[-1, 1]`. -/
theorem Cylinder.uvCoordinates_x_of_mem {p : vec3} (hz : ¬ |p.z| < 0.0001)
    (hx : -1 ≤ p.x ∧ p.x ≤ 1) :
    (Cylinder.uvCoordinates p).x
      = some (if p.z < 0 then 1 - Real.arccos p.x / (2 * Real.pi)
          else Real.arccos p.x / (2 * Real.pi)) := by
  by_cases hneg : p.z < 0
  · simp only [Cylinder.uvCoordinates, hz, hneg, if_false, if_true, cmath.acos,
      Option.some_bind, hx, and_self, Option.map_some']
  · simp only [Cylinder.uvCoordinates, hz, hneg, if_false, cmath.acos,
      Option.some_bind, hx, and_self, if_true, Option.map_some']

/-- The value of `u` away from `z = 0`, for an argument of `acos` outside
`[-1, 1]`: not a number. -/
theorem Cylinder.uvCoordinates_x_of_not_mem {p : vec3} (hz : ¬ |p.z| < 0.0001)
    (hx : ¬ (-1 ≤ p.x ∧ p.x ≤ 1)) : (Cylinder.uvCoordinates p).x = none := by
  simp only [Cylinder.uvCoordinates, hz, if_false, cmath.acos, Option.some_bind, hx,
    Option.map_none']
  split_ifs <;> rfl

/-- Where `u` is zero: in the band `|z| < ε`, and at `x = 1` in front of it. -/
theorem Cylinder.uvCoordinates_x_eq_zero_iff (p : vec3) :
    (Cylinder.uvCoordinates p).x = some 0
      ↔ |p.z| < 0.0001 ∨ (¬ p.z < 0 ∧ p.x = 1) := by
  have hpi := Real.pi_pos
  by_cases hz : |p.z| < 0.0001
  · simp only [Cylinder.uvCoordinates, hz, if_true, true_or]
  · by_cases hx : -1 ≤ p.x ∧ p.x ≤ 1
    · rw [Cylinder.uvCoordinates_x_of_mem hz hx]
      have hle := Real.arccos_le_pi p.x
      have hnn := Real.arccos_nonneg p.x
      by_cases hneg : p.z < 0
      · simp only [hneg, if_true, Option.some.injEq, hz, false_or, not_true_eq_false, false_and,
          iff_false]
        intro h
        have : Real.arccos p.x / (2 * Real.pi) ≤ 1 / 2 := by
          rw [div_le_iff₀ (by positivity)]
          linarith
        linarith
      · simp only [hneg, if_false, Option.some.injEq, hz, false_or, not_false_eq_true, true_and]
        rw [div_eq_zero_iff]
        constructor
        · rintro (h | h)
          · exact le_antisymm hx.2 (Real.arccos_eq_zero.mp h)
          · exfalso
            linarith
        · intro h
          exact Or.inl (Real.arccos_eq_zero.mpr h.ge)
    · rw [Cylinder.uvCoordinates_x_of_not_mem hz hx]
      constructor
      · intro h
        exact absurd h (by simp)
      · rintro (h | ⟨-, h1⟩)
        · exact absurd h hz
        · exfalso
          apply hx
          rw [h1]
          exact ⟨by norm_num, le_refl _⟩

/-- C8, as amended. Cylinder texture mapping: for every hit with object-space
hit point `(x, y, z)`, `z` a single-precision value (line 62), and
`ε = 0.0001`, the returned uv is the stated one: `v = (y + 1)/2`, `u = 0` when
`|z| < ε`, otherwise `u = acos(x)/(2π)`, replaced by `1 − u` when `z < −ε`
(one of the three cases applies, and `u` is not a number when `acos(x)` is
not); and `u = 0` holds exactly when `|z| < ε`, or `z ≥ ε` and `x = 1`. Under
the identity transform the ray from `(2,0,0)` towards `-X` gets `u = 0`,
`v = 0.5`. -/
theorem Cylinder.uv_mapping {Material : Type} (solve : ℝ → ℝ → ℝ → Option (ℝ × ℝ))
    (hq : QuadraticContract solve) (G : Geometry Material) :
    (∀ ray a b c p,
        Cylinder.intersectionPointFrom solve (G.transformedRayOrigin ray)
          (G.transformedRayDirection ray) a b c = some p →
        IsFloat32 p.z →
        (Cylinder.record G ray p).uv = Cylinder.uvStated p ∧
          (Cylinder.record G ray p).uv.y = some ((p.y + 1) / 2) ∧
          (|p.z| < 0.0001 ∨ 0.0001 ≤ p.z ∨ p.z < -0.0001) ∧
          (|p.z| < 0.0001 → (Cylinder.record G ray p).uv.x = some 0) ∧
          (0.0001 ≤ p.z → (Cylinder.record G ray p).uv.x
            = (cmath.acos (some p.x)).map fun w => w / (2 * Real.pi)) ∧
          (p.z < -0.0001 → (Cylinder.record G ray p).uv.x
            = ((cmath.acos (some p.x)).map fun w => w / (2 * Real.pi)).map fun w => 1 - w) ∧
          ((Cylinder.record G ray p).uv.x = some 0
            ↔ |p.z| < 0.0001 ∨ (0.0001 ≤ p.z ∧ p.x = 1))) ∧
      (G.IsIdentity →
        ∃ r, Cylinder.intersect solve G cylinderRay = some r ∧ r.uv = ⟨some 0, some 0.5⟩) := by
  constructor
  · intro ray a b c p _ hz
    have hne : p.z ≠ -0.0001 := hz.ne_neg_epsilon
    have hcases : |p.z| < 0.0001 ∨ 0.0001 ≤ p.z ∨ p.z < -0.0001 := by
      rcases lt_trichotomy p.z (-0.0001) with h | h | h
      · exact Or.inr (Or.inr h)
      · exact absurd h hne
      · rcases lt_or_le p.z 0.0001 with h2 | h2
        · exact Or.inl (abs_lt.mpr ⟨h, h2⟩)
        · exact Or.inr (Or.inl h2)
    have hsmall : |p.z| < 0.0001 → (Cylinder.uvCoordinates p).x = some 0 := by
      intro h
      simp only [Cylinder.uvCoordinates, h, if_true]
    have hpos : 0.0001 ≤ p.z → (Cylinder.uvCoordinates p).x
        = (cmath.acos (some p.x)).map fun w => w / (2 * Real.pi) := by
      intro h
      have h1 : ¬ |p.z| < 0.0001 := by
        rw [abs_of_nonneg (by linarith)]
        linarith
      have h2 : ¬ p.z < 0 := by linarith
      simp only [Cylinder.uvCoordinates, h1, h2, if_false]
    have hneg : p.z < -0.0001 → (Cylinder.uvCoordinates p).x
        = ((cmath.acos (some p.x)).map fun w => w / (2 * Real.pi)).map fun w => 1 - w := by
      intro h
      have h2 : p.z < 0 := by linarith
      have h1 : ¬ |p.z| < 0.0001 := by
        rw [abs_of_neg h2]
        linarith
      simp only [Cylinder.uvCoordinates, h1, h2, if_false, if_true]
    have hzero : (Cylinder.uvCoordinates p).x = some 0
        ↔ |p.z| < 0.0001 ∨ (0.0001 ≤ p.z ∧ p.x = 1) := by
      rw [Cylinder.uvCoordinates_x_eq_zero_iff]
      constructor
      · rintro (h | ⟨h0, h1⟩)
        · exact Or.inl h
        · by_cases hb : |p.z| < 0.0001
          · exact Or.inl hb
          · refine Or.inr ⟨?_, h1⟩
            rw [abs_of_nonneg (not_lt.mp h0)] at hb
            exact not_lt.mp hb
      · rintro (h | ⟨h0, h1⟩)
        · exact Or.inl h
        · exact Or.inr ⟨by linarith, h1⟩
    refine ⟨?_, rfl, hcases, hsmall, hpos, hneg, hzero⟩
    show Cylinder.uvCoordinates p = Cylinder.uvStated p
    ext1
    · rcases hcases with h | h | h
      · rw [hsmall h]
        simp only [Cylinder.uvStated, h, if_true]
      · rw [hpos h]
        have h1 : ¬ |p.z| < 0.0001 := by
          rw [abs_of_nonneg (by linarith)]
          linarith
        have h2 : ¬ p.z < -0.0001 := by linarith
        simp only [Cylinder.uvStated, h1, h2, if_false]
      · rw [hneg h]
        have h1 : ¬ |p.z| < 0.0001 := by
          rw [abs_of_neg (by linarith)]
          linarith
        simp only [Cylinder.uvStated, h1, h, if_false, if_true]
    · rfl
  · intro hG
    have hp : Cylinder.intersectionPoint solve G cylinderRay = some ⟨1, 0, 0⟩ :=
      Cylinder.intersectionPoint_horizontal hq hG 0 (by norm_num) (by norm_num)
    refine ⟨Cylinder.record G cylinderRay ⟨1, 0, 0⟩, ?_, ?_⟩
    · rw [Cylinder.intersect, hp, Option.map_some']
    · show Cylinder.uvCoordinates ⟨1, 0, 0⟩ = ⟨some 0, some 0.5⟩
      ext1
      · simp only [Cylinder.uvCoordinates]
        norm_num
      · simp only [Cylinder.uvCoordinates]
        norm_num

/-- Witness for C8: the solver model, the unit geometry and the ray of the
cylinder example, hit at `(1, 0, 0)`, where `z = 0` is a single-precision
value. -/
theorem Cylinder.uv_mapping_witness :
    (Cylinder.record unitGeometry cylinderRay ⟨1, 0, 0⟩).uv = Cylinder.uvStated ⟨1, 0, 0⟩ ∧
      ∃ r, Cylinder.intersect Tools.calculateQuadratic unitGeometry cylinderRay = some r ∧
        r.uv = ⟨some 0, some 0.5⟩ :=
  ⟨((Cylinder.uv_mapping Tools.calculateQuadratic Tools.calculateQuadratic_contract
      unitGeometry).1 cylinderRay _ _ _ ⟨1, 0, 0⟩
      (Cylinder.intersectionPoint_horizontal Tools.calculateQuadratic_contract
        unitGeometry_isIdentity 0 (by norm_num) (by norm_num)) isFloat32_zero).1,
    (Cylinder.uv_mapping Tools.calculateQuadratic Tools.calculateQuadratic_contract
      unitGeometry).2 unitGeometry_isIdentity⟩

/-- C8, counterexample. Under the identity transform the ray from
`(0, 0, 1/8192)` towards `+X` has the coefficient `c = 2⁻²⁶ − 1`, which a `float`
holds as `-1`; the hit point is then `(1, 0, 1/8192)`, where `|z| ≥ ε` and
`acos(1) = 0`: the returned `u` is `0` although `|z| < ε` fails. -/
theorem Cylinder.uv_mapping_counterexample :
    Cylinder.StoredHit Tools.calculateQuadratic unitGeometry frontRay ⟨1, 0, 1 / 8192⟩ ∧
      (∀ p, Cylinder.StoredHit Tools.calculateQuadratic unitGeometry frontRay p →
        p = ⟨1, 0, 1 / 8192⟩) ∧
      (Cylinder.record unitGeometry frontRay ⟨1, 0, 1 / 8192⟩).uv.x = some 0 ∧
      ¬ |(1 / 8192 : ℝ)| < 0.0001 := by
  have hiff := fun p => Cylinder.storedHit_grazing Tools.calculateQuadratic_contract
    unitGeometry_isIdentity (1 / 8192) (by norm_num) p
  have habs : ¬ |(1 / 8192 : ℝ)| < 0.0001 := by
    rw [abs_of_pos (by norm_num)]
    norm_num
  refine ⟨(hiff _).mpr rfl, fun p hp => (hiff p).mp hp, ?_, habs⟩
  show (Cylinder.uvCoordinates ⟨1, 0, 1 / 8192⟩).x = some 0
  have hz : ¬ (1 / 8192 : ℝ) < 0 := by norm_num
  have h1 : (-1 : ℝ) ≤ 1 ∧ (1 : ℝ) ≤ 1 := ⟨by norm_num, le_refl _⟩
  simp only [Cylinder.uvCoordinates, habs, hz, if_false, cmath.acos, Option.some_bind, h1,
    and_self, if_true, Option.map_some', Real.arccos_one, zero_div]

/-! ## Cylinder: range of the texture coordinates -/

/-- The side hit of the horizontal ray just above the apex, under the identity
transform: the side quadratic is `t² - t/4096 + 3/2²⁸`, with roots `1/16384` and
`3/16384`, and the point is `(-1/16384, 1/16384, 0)`, on the upper nappe. -/
theorem Cone.hit_nappeRay {Material : Type} {solve : ℝ → ℝ → ℝ → Option (ℝ × ℝ)}
    (hq : QuadraticContract solve) (plane : Ray → vec3 → vec3 → vec3 → Option vec3)
    {G : Geometry Material} (hG : G.IsIdentity) :
    Cone.hit solve plane G nappeRay
      = some ⟨false, ⟨-(1 / 16384), 1 / 16384, 0⟩,
          Cone.sideNormal ⟨-(1 / 16384), 1 / 16384, 0⟩⟩ := by
  have hs : solve
      ((G.transformedRayDirection nappeRay).x ^ 2 + (G.transformedRayDirection nappeRay).z ^ 2
        - (G.transformedRayDirection nappeRay).y ^ 2)
      (2 * (G.transformedRayOrigin nappeRay).x * (G.transformedRayDirection nappeRay).x
        + 2 * (G.transformedRayOrigin nappeRay).z * (G.transformedRayDirection nappeRay).z
        - 2 * (G.transformedRayOrigin nappeRay).y * (G.transformedRayDirection nappeRay).y)
      ((G.transformedRayOrigin nappeRay).x ^ 2 + (G.transformedRayOrigin nappeRay).z ^ 2
        - (G.transformedRayOrigin nappeRay).y ^ 2) = some (1 / 16384, 3 / 16384) := by
    rw [hG.transformedRayOrigin, hG.transformedRayDirection]
    apply hq.eq_some
    · norm_num [nappeRay]
    · norm_num
    · intro t
      simp only [nappeRay]
      ring
  rw [Cone.hit_of_roots hs, hG.transformedRayOrigin, hG.transformedRayDirection]
  have hp : nappeRay.origin + selectRoot (1 / 16384) (3 / 16384) * nappeRay.direction
      = ⟨-(1 / 16384), 1 / 16384, 0⟩ := by
    have h32 : ¬ (0 : ℝ) > 1 / 16384 := by norm_num
    simp only [selectRoot, h32, if_false]
    ext <;> norm_num [nappeRay]
  rw [hp]
  have h52 : ¬ (0 : ℝ) > 3 / 16384 := by norm_num
  have hy : ¬ ((1 / 16384 : ℝ) < -1.0001 ∨ (1 / 16384 : ℝ) > 0.0001) := by norm_num
  simp only [h52, hy, if_false]

/-- The side hit of the horizontal ray through the apex, under the identity
transform: the side quadratic is `t² - 2t + 1`, with the double root `1`, and
the point is the apex `(0, 0, 0)`. -/
theorem Cone.hit_apexRay {Material : Type} {solve : ℝ → ℝ → ℝ → Option (ℝ × ℝ)}
    (hq : QuadraticContract solve) (plane : Ray → vec3 → vec3 → vec3 → Option vec3)
    {G : Geometry Material} (hG : G.IsIdentity) :
    Cone.hit solve plane G apexRay
      = some ⟨false, ⟨0, 0, 0⟩, Cone.sideNormal ⟨0, 0, 0⟩⟩ := by
  have hs : solve
      ((G.transformedRayDirection apexRay).x ^ 2 + (G.transformedRayDirection apexRay).z ^ 2
        - (G.transformedRayDirection apexRay).y ^ 2)
      (2 * (G.transformedRayOrigin apexRay).x * (G.transformedRayDirection apexRay).x
        + 2 * (G.transformedRayOrigin apexRay).z * (G.transformedRayDirection apexRay).z
        - 2 * (G.transformedRayOrigin apexRay).y * (G.transformedRayDirection apexRay).y)
      ((G.transformedRayOrigin apexRay).x ^ 2 + (G.transformedRayOrigin apexRay).z ^ 2
        - (G.transformedRayOrigin apexRay).y ^ 2) = some (1, 1) := by
    rw [hG.transformedRayOrigin, hG.transformedRayDirection]
    apply hq.eq_some
    · norm_num [apexRay]
    · norm_num
    · intro t
      simp only [apexRay]
      ring
  rw [Cone.hit_of_roots hs, hG.transformedRayOrigin, hG.transformedRayDirection]
  have hp : apexRay.origin + selectRoot 1 1 * apexRay.direction = ⟨0, 0, 0⟩ := by
    have h32 : ¬ (0 : ℝ) > 1 := by norm_num
    simp only [selectRoot, h32, if_false]
    ext <;> norm_num [apexRay]
  rw [hp]
  have h52 : ¬ (0 : ℝ) > 1 := by norm_num
  have hy : ¬ ((0 : ℝ) < -1.0001 ∨ (0 : ℝ) > 0.0001) := by norm_num
  simp only [h52, hy, if_false]

/-- C17. Cone side texture range, evaluated under the identity transform. The
horizontal ray from `(-1/8192, 1/16384, 0)` is accepted as a side hit at height
`y = 1/16384`, within the tolerance of line 85, and gets `v = 1 + 1/16384`,
above the bound `0 ≤ v ≤ 1` of the comment at lines 123-125 (there `u = 0`). The
horizontal ray from `(-1, 0, 0)` is accepted as a side hit at the apex, where the
argument of `acos` is `0 / 0`: `u` is not a number (there `v = 1`). -/
theorem Cone.side_uv_out_of_range {Material : Type}
    (solve : ℝ → ℝ → ℝ → Option (ℝ × ℝ)) (hq : QuadraticContract solve)
    (plane : Ray → vec3 → vec3 → vec3 → Option vec3) (G : Geometry Material)
    (hG : G.IsIdentity) :
    (∃ (h : Cone.Hit) (r : Intersection Material),
      Cone.hit solve plane G nappeRay = some h ∧ h.checkExtremity = false ∧
      h.intersectionPoint = ⟨-(1 / 16384), 1 / 16384, 0⟩ ∧
      Cone.intersect solve plane G nappeRay = some r ∧
      r.uv = ⟨some 0, some (1 + 1 / 16384)⟩) ∧
    (1 : ℝ) < 1 + 1 / 16384 ∧
    (∃ (h : Cone.Hit) (r : Intersection Material),
      Cone.hit solve plane G apexRay = some h ∧ h.checkExtremity = false ∧
      h.intersectionPoint = ⟨0, 0, 0⟩ ∧
      Cone.intersect solve plane G apexRay = some r ∧
      r.uv = ⟨none, some 1⟩) := by
  have hn := Cone.hit_nappeRay hq plane hG
  have ha := Cone.hit_apexRay hq plane hG
  refine ⟨⟨_, _, hn, rfl, rfl, by rw [Cone.intersect, hn, Option.map_some'], ?_⟩, by norm_num,
    ⟨_, _, ha, rfl, rfl, by rw [Cone.intersect, ha, Option.map_some'], ?_⟩⟩
  · show Cone.uvCoordinates false ⟨-(1 / 16384), 1 / 16384, 0⟩ = ⟨some 0, some (1 + 1 / 16384)⟩
    have hden : (1 : ℝ) + -1 * (1 / 16384 + 1) = -(1 / 16384) := by norm_num
    have hne : ¬ (-(1 / 16384) : ℝ) = 0 := by norm_num
    have hq1 : (-(1 / 16384) : ℝ) / -(1 / 16384) = 1 := by norm_num
    have h1 : (-1 : ℝ) ≤ 1 ∧ (1 : ℝ) ≤ 1 := ⟨by norm_num, le_refl _⟩
    have hz : ¬ (0 : ℝ) < -0.0001 := by norm_num
    ext1
    · simp only [Cone.uvCoordinates, Bool.false_eq_true, if_false, hden, cmath.quotient, hne,
        hq1, cmath.acos, Option.some_bind, h1, and_self, if_true, Option.map_some',
        Real.arccos_one, zero_div, hz]
    · show some ((1 / 16384 : ℝ) + 1) = some (1 + 1 / 16384)
      rw [add_comm]
  · show Cone.uvCoordinates false ⟨0, 0, 0⟩ = ⟨none, some 1⟩
    have hden : (1 : ℝ) + -1 * (0 + 1) = 0 := by norm_num
    have hz : ¬ (0 : ℝ) < -0.0001 := by norm_num
    ext1
    · simp only [Cone.uvCoordinates, Bool.false_eq_true, if_false, hden, cmath.quotient,
        if_true, cmath.acos, Option.none_bind, Option.map_none', hz]
    · show some ((0 : ℝ) + 1) = some 1
      rw [zero_add]

/-- Witness for C17: the solver model, the helper model and the unit geometry. -/
theorem Cone.side_uv_out_of_range_witness :
    ∃ (h : Cone.Hit) (r : Intersection Unit),
      Cone.hit Tools.calculateQuadratic Cone._findIntersectionWithPlane unitGeometry nappeRay
        = some h ∧ h.checkExtremity = false ∧
      h.intersectionPoint = ⟨-(1 / 16384), 1 / 16384, 0⟩ ∧
      Cone.intersect Tools.calculateQuadratic Cone._findIntersectionWithPlane unitGeometry
        nappeRay = some r ∧
      r.uv = ⟨some 0, some (1 + 1 / 16384)⟩ :=
  (Cone.side_uv_out_of_range Tools.calculateQuadratic Tools.calculateQuadratic_contract
    Cone._findIntersectionWithPlane unitGeometry unitGeometry_isIdentity).1

end RayTracer

end
